import Mathlib

/-!
# Camera control of the PS Move tracker: a verification development

Shallow embedding of `src/tracker/camera_control.c`.

* C `int` values are `Int`.  The pixel arithmetic of `yuv422_to_bgr` goes through
  an explicit normalisation `norm : Int → Int` applied after every operation:
  `wrap32` gives the 32-bit two's complement machine, `id` the unbounded integers.
* Buffers (`uint8_t *`) are total maps from byte offsets to bytes; offsets are
  relative to the pointer the C function receives.  Pointer and index arithmetic
  (`2 * width`, `(width * 3) * j`, `i + 4`, `yuv_src += stride`) is exact: sizes
  at which an index leaves the range of `int` are outside the model.
* `>>` on a negative `int` is the arithmetic shift (`Int.shiftRight`, the floor
  of the division by the power of two).
* The three compile-time variants (`CAMERA_CONTROL_USE_CL_DRIVER`,
  `CAMERA_CONTROL_USE_PS3EYE_DRIVER`, neither) are a value of type `Backend`.
* Calls into the camera drivers, OpenCV and the environment are inputs of the
  embedded functions (what the call returned), never computed.
-/

namespace PSMove

/-! ## Machine integers and bytes -/

/-- One `uint8_t`. -/
abbrev Byte := Fin 256

/-- A byte buffer seen through a pointer: offset (in bytes) to contents. -/
abbrev Buffer := Int → Byte

/-- Two's complement reduction of an integer to the range of a 32-bit `int`. -/
def wrap32 (x : Int) : Int := (x + 2147483648) % 4294967296 - 2147483648

/-- The conversion `(uint8_t) x`. -/
def toU8 (x : Int) : Byte := ⟨(x % 256).toNat, by omega⟩

/-- Store of one byte: `p[a] = v`. -/
def store (m : Buffer) (a : Int) (v : Byte) : Buffer :=
  fun x => if x = a then v else m x

/-! ## `yuv422_to_bgr` (camera_control.c, lines 55-102) -/

def ITUR_BT_601_CY : Int := 1220542
def ITUR_BT_601_CUB : Int := 2116026
def ITUR_BT_601_CUG : Int := -409993
def ITUR_BT_601_CVG : Int := -852492
def ITUR_BT_601_CVR : Int := 1673527
def ITUR_BT_601_SHIFT : Nat := 20

def bIdx : Int := 2
def uIdx : Int := 0
def yIdx : Int := 0
def uidx : Int := 1 - yIdx + uIdx * 2
def vidx : Int := (2 + uidx) % 4

/-- The macro `_max(a, b)`: `((a) > (b)) ? (a) : (b)`. -/
def _max (a b : Int) : Int := if a > b then a else b

/-- The macro `_saturate(v)`:
`(uint8_t)((uint32_t)(v) <= 0xff ? v : v > 0 ? 0xff : 0)`. -/
def _saturate (v : Int) : Byte :=
  toU8 (if v % 4294967296 ≤ 0xff then v else if v > 0 then 0xff else 0)

/-- The values named in the body of the inner loop, for one 4-byte unit
`(Y0, U, Y1, V)`; every `int` operation is followed by `norm`. -/
structure Intermediates where
  u : Int
  v : Int
  ruv : Int
  guv : Int
  buv : Int
  y00 : Int
  y01 : Int
  deriving Repr, DecidableEq

/-- Lines 82-89 and 94 of the source: the `int` locals of one loop iteration
reading the unit that starts at `yuv_src[i]`. -/
def intermediates (norm : Int → Int) (yuv_src : Buffer) (i : Int) : Intermediates :=
  let u := norm (((yuv_src (i + uidx)).val : Int) - 128)
  let v := norm (((yuv_src (i + vidx)).val : Int) - 128)
  let ruv := norm (norm ((1 <<< (ITUR_BT_601_SHIFT - 1) : Nat) : Int) + norm (ITUR_BT_601_CVR * v))
  let guv := norm (norm (norm ((1 <<< (ITUR_BT_601_SHIFT - 1) : Nat) : Int)
    + norm (ITUR_BT_601_CVG * v)) + norm (ITUR_BT_601_CUG * u))
  let buv := norm (norm ((1 <<< (ITUR_BT_601_SHIFT - 1) : Nat) : Int) + norm (ITUR_BT_601_CUB * u))
  let y00 := norm (_max 0 (norm (((yuv_src (i + yIdx)).val : Int) - 16)) * ITUR_BT_601_CY)
  let y01 := norm (_max 0 (norm (((yuv_src (i + yIdx + 2)).val : Int) - 16)) * ITUR_BT_601_CY)
  { u := u, v := v, ruv := ruv, guv := guv, buv := buv, y00 := y00, y01 := y01 }

/-- Body of the inner loop (lines 82-97): six stores through `row`. -/
def pixel_pair (norm : Int → Int) (yuv_src : Buffer) (i : Int) (row : Int) (dst : Buffer) :
    Buffer :=
  let t := intermediates norm yuv_src i
  let dst := store dst (row + (2 - bIdx)) (_saturate (norm (t.y00 + t.buv) >>> ITUR_BT_601_SHIFT))
  let dst := store dst (row + 1) (_saturate (norm (t.y00 + t.guv) >>> ITUR_BT_601_SHIFT))
  let dst := store dst (row + bIdx) (_saturate (norm (t.y00 + t.ruv) >>> ITUR_BT_601_SHIFT))
  let dst := store dst (row + (5 - bIdx)) (_saturate (norm (t.y01 + t.buv) >>> ITUR_BT_601_SHIFT))
  let dst := store dst (row + 4) (_saturate (norm (t.y01 + t.guv) >>> ITUR_BT_601_SHIFT))
  let dst := store dst (row + (3 + bIdx)) (_saturate (norm (t.y01 + t.ruv) >>> ITUR_BT_601_SHIFT))
  dst

/-- The inner loop `for (i = 0; i < 2 * width; i += 4, row += 6)`, entered with
the current `i` and `row`; `fuel` bounds the number of iterations. -/
def inner_loop (norm : Int → Int) (yuv_src : Buffer) (width : Int) :
    Nat → Int → Int → Buffer → Buffer
  | 0, _, _, dst => dst
  | fuel + 1, i, row, dst =>
    if i < 2 * width then
      inner_loop norm yuv_src width fuel (i + 4) (row + 6) (pixel_pair norm yuv_src i row dst)
    else dst

/-- The outer loop `for (j = 0; j < height; j++, yuv_src += stride)`, entered with
the current `j`; `off` is the distance the pointer `yuv_src` has advanced. -/
def outer_loop (norm : Int → Int) (yuv_src : Buffer) (stride width height : Int) :
    Nat → Int → Int → Buffer → Buffer
  | 0, _, _, dst => dst
  | fuel + 1, j, off, dst =>
    if j < height then
      outer_loop norm yuv_src stride width height fuel (j + 1) (off + stride)
        (inner_loop norm (fun a => yuv_src (off + a)) width (2 * width).toNat 0
          ((width * 3) * j) dst)
    else dst

/-- The function `yuv422_to_bgr(yuv_src, stride, dst, width, height)` with the
arithmetic `norm`; the result is the destination buffer after the call. -/
def yuv422_to_bgr_with (norm : Int → Int) (yuv_src : Buffer) (stride : Int) (dst : Buffer)
    (width height : Int) : Buffer :=
  outer_loop norm yuv_src stride width height height.toNat 0 0 dst

/-- The function `yuv422_to_bgr` as compiled: 32-bit `int` arithmetic. -/
def yuv422_to_bgr (yuv_src : Buffer) (stride : Int) (dst : Buffer) (width height : Int) :
    Buffer :=
  yuv422_to_bgr_with wrap32 yuv_src stride dst width height

/-! ### The conversion formula as the specification words it -/

/-- Saturation: negatives to 0, values above 255 to 255, any other value to itself. -/
def sat (x : Int) : Int := if x < 0 then 0 else if x > 255 then 255 else x

/-- Scaled luma: `max(0, Y - 16) * 1220542`. -/
def lumaScaled (y : Int) : Int := max 0 (y - 16) * 1220542

/-- Blue: `sat((y' + 524288 + 2116026*u) >> 20)` with `u = U - 128`. -/
def specB (y u : Int) : Int := sat ((lumaScaled y + 524288 + 2116026 * (u - 128)) / 1048576)

/-- Green: `sat((y' + 524288 - 852492*v - 409993*u) >> 20)`. -/
def specG (y u v : Int) : Int :=
  sat ((lumaScaled y + 524288 - 852492 * (v - 128) - 409993 * (u - 128)) / 1048576)

/-- Red: `sat((y' + 524288 + 1673527*v) >> 20)` with `v = V - 128`. -/
def specR (y v : Int) : Int := sat ((lumaScaled y + 524288 + 1673527 * (v - 128)) / 1048576)

/-- The range of a 32-bit `int`. -/
def inRange32 (x : Int) : Prop := -2147483648 ≤ x ∧ x ≤ 2147483647

instance (x : Int) : Decidable (inRange32 x) := by unfold inRange32; infer_instance

/-- The byte the formula of the specification puts at position `t` of the six
bytes of a pixel pair `(Y0, U, Y1, V)`. -/
def specPair (y0 u y1 v : Int) (t : Int) : Int :=
  if t = 0 then specB y0 u
  else if t = 1 then specG y0 u v
  else if t = 2 then specR y0 v
  else if t = 3 then specB y1 u
  else if t = 4 then specG y1 u v
  else specR y1 v

/-- A source buffer repeating the unit `(y, u, y, v)`. -/
def unitBuffer (y u v : Byte) : Buffer :=
  fun a => if a % 4 = 1 then u else if a % 4 = 3 then v else y


/-- The byte the formula puts at channel `c` (0 blue, 1 green, 2 red) of a pixel
of luma `y` whose 4-byte unit carries the chroma `u`, `v`. -/
def specPixel (y u v : Int) (c : Int) : Int :=
  if c = 0 then specB y u else if c = 1 then specG y u v else specR y v

/-! ## Types used by the camera handle -/

/-- The compile-time variant of camera_control.c: `CAMERA_CONTROL_USE_CL_DRIVER`
defined, else `CAMERA_CONTROL_USE_PS3EYE_DRIVER` defined, else neither (the
`#else` branches: a capture device of OpenCV). -/
inductive Backend
  | CL_DRIVER
  | PS3EYE_DRIVER
  | OPENCV
  deriving DecidableEq, Repr

/-- Modelled from the spec: `enum PSMove_Bool` is declared in a header that is
not among the sources; camera_control.c uses its two values. -/
inductive PSMove_Bool
  | PSMove_False
  | PSMove_True
  deriving DecidableEq, Repr

/-- Modelled from the spec: `enum PSMoveTracker_ErrorCode` is declared in
psmove_tracker.h, not among the sources.  camera_control.c assigns
`PSMove_Camera_Not_Found` ("camera not found") and
`PSMove_Camera_USB_Open_Failure` ("device open failure");
`PSMove_Camera_Error_None` stands for any value held before an assignment. -/
inductive PSMoveTracker_ErrorCode
  | PSMove_Camera_Error_None
  | PSMove_Camera_Not_Found
  | PSMove_Camera_USB_Open_Failure
  deriving DecidableEq, Repr

/-- Modelled from the spec: the macros `PSMOVE_TRACKER_DEFAULT_WIDTH`,
`PSMOVE_TRACKER_DEFAULT_HEIGHT`, `PSMOVE_TRACKER_DEFAULT_FPS` (the built-in
defaults) and the values of the camera types `PSMove_Camera_PS3EYE_BLUEDOT`,
`PSMove_Camera_PS3EYE_REDDOT`, `PSMove_Camera_Unknown` are declared in headers
that are not among the sources; they are parameters of the model. -/
structure Constants where
  PSMOVE_TRACKER_DEFAULT_WIDTH : Int
  PSMOVE_TRACKER_DEFAULT_HEIGHT : Int
  PSMOVE_TRACKER_DEFAULT_FPS : Int
  PSMove_Camera_PS3EYE_BLUEDOT : Int
  PSMove_Camera_PS3EYE_REDDOT : Int
  PSMove_Camera_Unknown : Int
  deriving DecidableEq, Repr

/-- The macro `PS3EYE_FOCAL_LENGTH_BLUE` (line 43).  A C `float` is taken as the
rational it is written as; rounding to binary32 is not modelled. -/
def PS3EYE_FOCAL_LENGTH_BLUE : Rat := 5542563 / 10000

/-- The macro `PS3EYE_FOCAL_LENGTH_RED` (line 44). -/
def PS3EYE_FOCAL_LENGTH_RED : Rat := 7763782 / 10000

/-- An OpenCV `IplImage`: the header fields camera_control.c reads or writes and
the pixel memory.  Byte `b` of row `y` is `data (imageData + y * widthStep + b)`;
`depth` is the number of bits of one channel value. -/
structure IplImage where
  nChannels : Int
  depth : Int
  width : Int
  height : Int
  widthStep : Int
  imageData : Int
  data : Buffer

/-- An OpenCV `CvMat` of `float` entries, read with `CV_MAT_ELEM`. -/
structure CvMat where
  rows : Int
  cols : Int
  elem : Int → Int → Rat

/-- The camera `CLEyeCreateCamera(cguid, CLEYE_COLOR_PROCESSED, CLEYE_VGA, framerate)`
returns, named by the arguments that vary. -/
structure CLEyeCameraInstance where
  cameraID : Int
  framerate : Int
  deriving DecidableEq, Repr

/-- The camera `ps3eye_open(cameraID, width, height, framerate)` returns, named
by its arguments. -/
structure ps3eye_t where
  cameraID : Int
  width : Int
  height : Int
  framerate : Int
  deriving DecidableEq, Repr

/-- The capture `cvCaptureFromFile(video)` or `cvCaptureFromCAM(cameraID)`
returns, with the two properties `cvSetCaptureProperty` may have set. -/
structure CvCapture where
  video : Option String
  cameraID : Int
  frameWidth : Option Int
  frameHeight : Option Int
  deriving DecidableEq, Repr

/-- Modelled from the spec: `struct _CameraControl` is declared in
camera_control_private.h, not among the sources.  The fields are those
camera_control.c reads and writes (the spec's CameraHandle); the fields of all
three variants are kept side by side, those of the other variants stay null. -/
structure CameraControl where
  cameraID : Int
  camera : Option CLEyeCameraInstance
  frame4ch : Option IplImage
  frame3ch : Option IplImage
  eye : Option ps3eye_t
  framebgr : Option IplImage
  capture : Option CvCapture
  width : Int
  height : Int
  deinterlace : PSMove_Bool
  frame3chUndistort : Option IplImage
  mapx : Option IplImage
  mapy : Option IplImage
  focl_x : Rat
  focl_y : Rat

/-- The zeroed block `calloc(1, sizeof(CameraControl))`. -/
def calloc_CameraControl : CameraControl :=
  { cameraID := 0, camera := none, frame4ch := none, frame3ch := none, eye := none,
    framebgr := none, capture := none, width := 0, height := 0,
    deinterlace := PSMove_Bool.PSMove_False, frame3chUndistort := none, mapx := none,
    mapy := none, focl_x := 0, focl_y := 0 }

/-- What the environment holds: the values `psmove_util_get_env_int` returns for
`PSMOVE_TRACKER_WIDTH_ENV` and `PSMOVE_TRACKER_HEIGHT_ENV` (`get_metrics` tests
them against -1) and what `psmove_util_get_env_string` returns for
`PSMOVE_TRACKER_FILENAME_ENV` (the input-source override, null when unset). -/
structure Environment where
  width : Int
  height : Int
  filename : Option String
  deriving DecidableEq, Repr

/-- What the driver calls made by `camera_control_new_with_settings` return:
the camera count (`CLEyeGetCameraCount`, `ps3eye_count_connected`), whether
`CLEyeCreateCamera`, `ps3eye_open`, `cvCaptureFromFile` / `cvCaptureFromCAM` give
a non-null object, and the size `CLEyeCameraGetFrameDimensions` reports. -/
structure Drivers where
  cams : Int
  clCameraCreated : Bool
  clFrameWidth : Int
  clFrameHeight : Int
  eyeOpened : Bool
  captureOpened : Bool
  deriving DecidableEq, Repr

/-- What the backend delivers during one `camera_control_query_frame`:
`clFrame` the bytes `CLEyeCameraGetFrame` writes through `pCapBuffer` (none when
it fails), `eyeFrame` the pixels and stride of `ps3eye_grab_frame` (none for a
null pointer), `retrieved` the image `cvRetrieveFrame` returns (none for null,
as after a failed `cvGrabFrame`). -/
structure Delivery where
  clFrame : Option Buffer
  eyeFrame : Option (Buffer × Int)
  retrieved : Option IplImage

/-- The two OpenCV routines whose numeric result the model does not compute:
`cvInitUndistortMap(intrinsic, distortion, mapx, mapy)` gives the pixel memory it
leaves in `mapx` and in `mapy`; `cvRemap(src, dst, mapx, mapy, ...)` gives the
pixel memory it leaves in `dst`. -/
structure OpenCV where
  cvInitUndistortMap : CvMat → CvMat → IplImage → IplImage → Buffer × Buffer
  cvRemap : IplImage → IplImage → IplImage → IplImage → Buffer

/-! ## OpenCV image primitives -/

/-- OpenCV `cvCreateImage(cvSize(width, height), depth, channels)`: a header with
rows aligned to 4 bytes and fresh pixel memory (taken as zero). -/
def cvCreateImage (width height depth channels : Int) : IplImage :=
  { nChannels := channels, depth := depth, width := width, height := height,
    widthStep := (width * channels * (depth / 8) + 3) / 4 * 4, imageData := 0,
    data := fun _ => 0 }

/-- OpenCV `cvCloneImage`: a copy of header and pixels. -/
def cvCloneImage (img : IplImage) : IplImage := img

/-- Byte `b` of row `y` of an image. -/
def IplImage.byteAt (img : IplImage) (y b : Int) : Byte :=
  img.data (img.imageData + y * img.widthStep + b)

/-- Write of a whole 8-bit image: the byte at offset `b` of row `y` becomes
`f y b`, for the rows and row bytes of the image; other memory is kept. -/
def IplImage.fill (img : IplImage) (f : Int → Int → Byte) : IplImage :=
  let data : Buffer := fun a =>
    let r := a - img.imageData
    let y := r / img.widthStep
    let b := r % img.widthStep
    if 0 < img.widthStep ∧ 0 ≤ y ∧ y < img.height ∧ b < img.width * img.nChannels then
      f y b
    else img.data a
  { img with data := data }

/-- OpenCV `cvResize(src, dst, CV_INTER_NN)` on 8-bit images: nearest
neighbour, destination row `y` copies source row `floor(y*srcHeight/dstHeight)`
and destination column `x` copies source column `floor(x*srcWidth/dstWidth)`. -/
def cvResize_NN (src dst : IplImage) : IplImage :=
  dst.fill fun y b =>
    let x := b / dst.nChannels
    let c := b % dst.nChannels
    src.byteAt (y * src.height / dst.height) ((x * src.width / dst.width) * src.nChannels + c)

/-- OpenCV `cvMixChannels(src, 1, dst, 1, from_to, 3)` with
`from_to = { 0, 0, 1, 1, 2, 2 }`: channels 0, 1, 2 of each pixel are copied. -/
def cvMixChannels_012 (src dst : IplImage) : IplImage :=
  dst.fill fun y b =>
    let x := b / dst.nChannels
    let c := b % dst.nChannels
    if c < 3 then src.byteAt y (x * src.nChannels + c) else dst.byteAt y b

/-! ## The functions of camera_control.c -/

/-- The function `get_metrics` (lines 106-119). -/
def get_metrics (K : Constants) (env : Environment) : Int × Int :=
  let width := env.width
  let height := env.height
  let width := if width = -1 then K.PSMOVE_TRACKER_DEFAULT_WIDTH else width
  let height := if height = -1 then K.PSMOVE_TRACKER_DEFAULT_HEIGHT else height
  (width, height)

/-- The function `camera_control_new_with_settings` (lines 128-229).  The
result is the returned pointer (none for NULL) and the value of the global
`g_last_tracker_error_code` after the call, `g` being its value before. -/
def camera_control_new_with_settings (b : Backend) (K : Constants) (env : Environment)
    (drv : Drivers) (g : PSMoveTracker_ErrorCode)
    (cameraID width height framerate cam_type : Int) :
    Option CameraControl × PSMoveTracker_ErrorCode :=
  let cc : CameraControl := { calloc_CameraControl with cameraID := cameraID }
  let framerate := if framerate ≤ 0 then K.PSMOVE_TRACKER_DEFAULT_FPS else framerate
  let cc : CameraControl :=
    if cam_type = K.PSMove_Camera_PS3EYE_BLUEDOT then
      { cc with focl_x := PS3EYE_FOCAL_LENGTH_BLUE, focl_y := PS3EYE_FOCAL_LENGTH_BLUE }
    else if cam_type = K.PSMove_Camera_PS3EYE_REDDOT then
      { cc with focl_x := PS3EYE_FOCAL_LENGTH_RED, focl_y := PS3EYE_FOCAL_LENGTH_RED }
    else if cam_type = K.PSMove_Camera_Unknown then
      { cc with focl_x := PS3EYE_FOCAL_LENGTH_BLUE, focl_y := PS3EYE_FOCAL_LENGTH_BLUE }
    else cc
  match b with
  | Backend.CL_DRIVER =>
    let cams := drv.cams
    if cams ≤ cameraID then (none, g)
    else
      let camera : Option CLEyeCameraInstance :=
        if drv.clCameraCreated then some (CLEyeCameraInstance.mk cameraID framerate) else none
      let cc := { cc with camera := camera }
      let width := drv.clFrameWidth
      let height := drv.clFrameHeight
      let cc := { cc with frame4ch := some (cvCreateImage width height 8 4) }
      let cc := { cc with frame3ch := some (cvCreateImage width height 8 3) }
      (some { cc with width := width, height := height,
                      deinterlace := PSMove_Bool.PSMove_False }, g)
  | Backend.PS3EYE_DRIVER =>
    let cams := drv.cams
    if cams ≤ cameraID then (none, PSMoveTracker_ErrorCode.PSMove_Camera_Not_Found)
    else
      let wh := if width ≤ 0 ∨ height ≤ 0 then get_metrics K env else (width, height)
      let width := wh.1
      let height := wh.2
      let eye : Option ps3eye_t :=
        if drv.eyeOpened then some (ps3eye_t.mk cameraID width height framerate) else none
      let cc := { cc with eye := eye }
      if cc.eye.isNone then (none, PSMoveTracker_ErrorCode.PSMove_Camera_USB_Open_Failure)
      else
        let cc := { cc with framebgr := some (cvCreateImage width height 8 3) }
        (some { cc with width := width, height := height,
                        deinterlace := PSMove_Bool.PSMove_False }, g)
  | Backend.OPENCV =>
    match env.filename with
    | some video =>
      let capture : Option CvCapture :=
        if drv.captureOpened then some (CvCapture.mk (some video) 0 none none) else none
      let cc := { cc with capture := capture }
      (some { cc with width := width, height := height,
                      deinterlace := PSMove_Bool.PSMove_False }, g)
    | none =>
      let capture : Option CvCapture :=
        if drv.captureOpened then some (CvCapture.mk none cc.cameraID none none) else none
      let cc := { cc with capture := capture }
      let wh := if width ≤ 0 ∨ height ≤ 0 then get_metrics K env else (width, height)
      let width := wh.1
      let height := wh.2
      let capture := cc.capture.map fun (c : CvCapture) => { c with frameWidth := some width }
      let cc := { cc with capture := capture }
      let capture := cc.capture.map fun (c : CvCapture) => { c with frameHeight := some height }
      let cc := { cc with capture := capture }
      (some { cc with width := width, height := height,
                      deinterlace := PSMove_Bool.PSMove_False }, g)

/-- The function `camera_control_new` (lines 122-126). -/
def camera_control_new (b : Backend) (K : Constants) (env : Environment) (drv : Drivers)
    (g : PSMoveTracker_ErrorCode) (cameraID : Int) :
    Option CameraControl × PSMoveTracker_ErrorCode :=
  camera_control_new_with_settings b K env drv g cameraID 0 0 0 2

/-- The function `camera_control_set_deinterlace` (lines 231-238); a null handle
is left alone (`psmove_return_if_fail(cc != NULL)`). -/
def camera_control_set_deinterlace (cc : Option CameraControl) (enabled : PSMove_Bool) :
    Option CameraControl :=
  match cc with
  | none => none
  | some cc => some { cc with deinterlace := enabled }

/-- The deinterlace stage of `camera_control_query_frame` (lines 337-358),
applied to the image `result` points at: the first component is that image after
`cvResize`, the second the clone `tmp` as it is handed to `cvReleaseImage`. -/
def deinterlace_stage (result : IplImage) : IplImage × IplImage :=
  let tmp := cvCloneImage result
  let tmp := { tmp with imageData := tmp.imageData + tmp.widthStep }
  let tmp := { tmp with widthStep := tmp.widthStep * 2 }
  let tmp := { tmp with height := Int.tdiv tmp.height 2 }
  let result := cvResize_NN tmp result
  let tmp := { tmp with height := result.height }
  let tmp := { tmp with widthStep := result.widthStep }
  let tmp := { tmp with imageData := tmp.imageData - tmp.widthStep }
  (result, tmp)

/-- Where `result` of `camera_control_query_frame` points before the undistort
stage: at a frame buffer of the handle or at the image of the capture. -/
inductive FrameRef
  | frame3ch
  | framebgr
  | retrieved
  deriving DecidableEq, Repr

/-- The frame buffer `result` points at after the acquisition, by variant
(lines 306, 318, 324). -/
def resultRef (b : Backend) : FrameRef :=
  match b with
  | Backend.CL_DRIVER => FrameRef.frame3ch
  | Backend.PS3EYE_DRIVER => FrameRef.framebgr
  | Backend.OPENCV => FrameRef.retrieved

/-- The image held by the buffer a `FrameRef` names: a frame buffer of the
handle, or the image the capture delivered. -/
def frameAt (cc : CameraControl) (d : Delivery) (ref : FrameRef) : Option IplImage :=
  match ref with
  | FrameRef.frame3ch => cc.frame3ch
  | FrameRef.framebgr => cc.framebgr
  | FrameRef.retrieved => d.retrieved

/-- The handle once the buffer a `FrameRef` names holds `img`; the image of the
capture is not part of the handle. -/
def storeFrame (cc : CameraControl) (ref : FrameRef) (img : IplImage) : CameraControl :=
  match ref with
  | FrameRef.frame3ch => { cc with frame3ch := some img }
  | FrameRef.framebgr => { cc with framebgr := some img }
  | FrameRef.retrieved => cc

/-- Lines 291-329 of `camera_control_query_frame`, the acquisition: the handle
after it, where `result` points and the image there (none for NULL), and the
value of `*out_new_frame`.  The whole is none when the C code dereferences a
null frame buffer. -/
def query_frame_acquire (b : Backend) (cc : CameraControl) (d : Delivery) :
    Option (CameraControl × FrameRef × Option IplImage × PSMove_Bool) :=
  let out_new_frame := PSMove_Bool.PSMove_False
  match b with
  | Backend.CL_DRIVER =>
    match cc.frame4ch, cc.frame3ch with
    | some frame4ch, some frame3ch =>
      let frame4ch : IplImage :=
        match d.clFrame with
        | some bytes => frame4ch.fill fun y x => bytes (y * frame4ch.widthStep + x)
        | none => frame4ch
      let frame3ch := cvMixChannels_012 frame4ch frame3ch
      let cc := { cc with frame4ch := some frame4ch, frame3ch := some frame3ch }
      let out_new_frame := PSMove_Bool.PSMove_True
      some (cc, FrameRef.frame3ch, some frame3ch, out_new_frame)
    | _, _ => none
  | Backend.PS3EYE_DRIVER =>
    match cc.framebgr with
    | some framebgr =>
      match d.eyeFrame with
      | some (pixels, stride) =>
        let cvpixels : Buffer := fun a => framebgr.data (framebgr.imageData + a)
        let cvpixels := yuv422_to_bgr pixels stride cvpixels cc.width cc.height
        let framebgr := { framebgr with data := fun a => cvpixels (a - framebgr.imageData) }
        let out_new_frame := PSMove_Bool.PSMove_True
        some ({ cc with framebgr := some framebgr }, FrameRef.framebgr, some framebgr,
          out_new_frame)
      | none => some (cc, FrameRef.framebgr, some framebgr, out_new_frame)
    | none => none
  | Backend.OPENCV =>
    let out_new_frame := PSMove_Bool.PSMove_True
    some (cc, FrameRef.retrieved, d.retrieved, out_new_frame)

/-- Lines 331-359 of `camera_control_query_frame`, the deinterlace stage inside
the handle: `cvResize` writes into the image `result` points at.  None when
`cvCloneImage` receives a null image. -/
def query_frame_deinterlace (cc : CameraControl) (ref : FrameRef) (result : Option IplImage) :
    Option (CameraControl × Option IplImage) :=
  if cc.deinterlace = PSMove_Bool.PSMove_True then
    match result with
    | none => none
    | some img =>
      let img := (deinterlace_stage img).1
      match ref with
      | FrameRef.frame3ch => some ({ cc with frame3ch := some img }, some img)
      | FrameRef.framebgr => some ({ cc with framebgr := some img }, some img)
      | FrameRef.retrieved => some (cc, some img)
  else some (cc, result)

/-- Lines 361-368 of `camera_control_query_frame`, the undistort stage.  None
when `cvRemap` receives a null image. -/
def query_frame_undistort (cv : OpenCV) (cc : CameraControl) (result : Option IplImage) :
    Option (CameraControl × Option IplImage) :=
  match cc.mapx, cc.mapy with
  | some mapx, some mapy =>
    match result, cc.frame3chUndistort with
    | some img, some und =>
      let und := { und with data := cv.cvRemap img und mapx mapy }
      some ({ cc with frame3chUndistort := some und }, some und)
    | _, _ => none
  | _, _ => some (cc, result)

/-- The function `camera_control_query_frame` (lines 285-377), timestamps left
out.  The result is none when the C code dereferences a null pointer; otherwise
the handle after the call, the image returned (none for NULL) and the value
stored in `*out_new_frame`. -/
def camera_control_query_frame (b : Backend) (cv : OpenCV) (cc : CameraControl)
    (d : Delivery) : Option (CameraControl × Option IplImage × PSMove_Bool) :=
  match query_frame_acquire b cc d with
  | none => none
  | some (cc, ref, result, out_new_frame) =>
    match query_frame_deinterlace cc ref result with
    | none => none
    | some (cc, result) =>
      match query_frame_undistort cv cc result with
      | none => none
      | some (cc, result) => some (cc, result, out_new_frame)

/-- The function `camera_control_read_calibration` (lines 240-272).
`intrinsic` and `distortion` are what the two `cvLoad` calls return (none for
NULL); `d` is the delivery of the frame query made when there is no scratch
image yet.  The result is none when the C code dereferences a null pointer. -/
def camera_control_read_calibration (b : Backend) (K : Constants) (cv : OpenCV)
    (env : Environment) (cc : CameraControl) (intrinsic distortion : Option CvMat)
    (d : Delivery) : Option CameraControl :=
  let cc := if cc.mapx.isSome then { cc with mapx := none } else cc
  let cc := if cc.mapy.isSome then { cc with mapy := none } else cc
  match intrinsic, distortion with
  | some intrinsic, some distortion =>
    let withScratch : Option CameraControl :=
      if cc.frame3chUndistort.isNone then
        match camera_control_query_frame b cv cc d with
        | some (cc, some frame, _) =>
          some { cc with frame3chUndistort := some (cvCloneImage frame) }
        | _ => none
      else some cc
    match withScratch with
    | none => none
    | some cc =>
      let wh := get_metrics K env
      let width := wh.1
      let height := wh.2
      let mapx := cvCreateImage width height 32 1
      let mapy := cvCreateImage width height 32 1
      let maps := cv.cvInitUndistortMap intrinsic distortion mapx mapy
      let cc := { cc with mapx := some { mapx with data := maps.1 } }
      let cc := { cc with mapy := some { mapy with data := maps.2 } }
      let cc := { cc with focl_x := intrinsic.elem 0 0 }
      let cc := { cc with focl_y := intrinsic.elem 1 1 }
      some cc
  | _, _ => some cc

/-- The function `camera_control_reset_calibration` (lines 274-283). -/
def camera_control_reset_calibration (cc : CameraControl) : CameraControl :=
  let cc := if cc.mapx.isSome then { cc with mapx := none } else cc
  let cc := if cc.mapy.isSome then { cc with mapy := none } else cc
  cc

/-- The handles reachable from one returned by `camera_control_new_with_settings`
through calls of `camera_control_read_calibration`,
`camera_control_reset_calibration`, `camera_control_set_deinterlace` and
`camera_control_query_frame`. -/
inductive Reachable (b : Backend) (K : Constants) (cv : OpenCV) : CameraControl → Prop
  | opened (env : Environment) (drv : Drivers) (g g' : PSMoveTracker_ErrorCode)
      (cameraID width height framerate cam_type : Int) (cc : CameraControl) :
      camera_control_new_with_settings b K env drv g cameraID width height framerate cam_type
        = (some cc, g') → Reachable b K cv cc
  | read_calibration (env : Environment) (intrinsic distortion : Option CvMat) (d : Delivery)
      (cc cc' : CameraControl) :
      Reachable b K cv cc →
      camera_control_read_calibration b K cv env cc intrinsic distortion d = some cc' →
      Reachable b K cv cc'
  | reset_calibration (cc : CameraControl) :
      Reachable b K cv cc → Reachable b K cv (camera_control_reset_calibration cc)
  | set_deinterlace (enabled : PSMove_Bool) (cc cc' : CameraControl) :
      Reachable b K cv cc → camera_control_set_deinterlace (some cc) enabled = some cc' →
      Reachable b K cv cc'
  | query_frame (d : Delivery) (cc cc' : CameraControl) (result : Option IplImage)
      (new_frame : PSMove_Bool) :
      Reachable b K cv cc →
      camera_control_query_frame b cv cc d = some (cc', result, new_frame) →
      Reachable b K cv cc'

/-! ## Concrete inputs used by the examples -/

/-- Built-in defaults 640x480 at 60 frames per second, camera types 0, 1, 2. -/
def sampleConstants : Constants :=
  { PSMOVE_TRACKER_DEFAULT_WIDTH := 640, PSMOVE_TRACKER_DEFAULT_HEIGHT := 480,
    PSMOVE_TRACKER_DEFAULT_FPS := 60, PSMove_Camera_PS3EYE_BLUEDOT := 0,
    PSMove_Camera_PS3EYE_REDDOT := 1, PSMove_Camera_Unknown := 2 }

/-- No override is set: both integers read as -1, the file name as null. -/
def envUnset : Environment := { width := -1, height := -1, filename := none }

/-- Only the input-source override is set. -/
def envVideo : Environment := { width := -1, height := -1, filename := some "recording.avi" }

/-- No camera is connected. -/
def noCameras : Drivers :=
  { cams := 0, clCameraCreated := false, clFrameWidth := 0, clFrameHeight := 0,
    eyeOpened := false, captureOpened := false }

/-- One camera is connected and every driver call succeeds; the CL driver
reports VGA frames. -/
def oneCamera : Drivers :=
  { cams := 1, clCameraCreated := true, clFrameWidth := 640, clFrameHeight := 480,
    eyeOpened := true, captureOpened := true }

/-- The backend delivers no frame. -/
def nothingDelivered : Delivery := { clFrame := none, eyeFrame := none, retrieved := none }

/-- An instance of the two OpenCV routines: zero maps, and a remap that copies. -/
def sampleOpenCV : OpenCV :=
  { cvInitUndistortMap := fun _ _ _ _ => (fun _ => 0, fun _ => 0),
    cvRemap := fun src _ _ _ => src.data }

/-- A 3x3 matrix, as loaded from a calibration file. -/
def sampleMat : CvMat := { rows := 3, cols := 3, elem := fun i j => if i = j then 500 else 0 }

/-- The handle of the PS3EYE variant opened with camera 0 at an explicit 320x240. -/
def handle320 : CameraControl :=
  ((camera_control_new_with_settings Backend.PS3EYE_DRIVER sampleConstants envUnset oneCamera
    PSMoveTracker_ErrorCode.PSMove_Camera_Error_None 0 320 240 60 0).1).getD calloc_CameraControl

/-- The handle `handle320` after a calibration load in which both files load. -/
def handle320Calibrated : CameraControl :=
  (camera_control_read_calibration Backend.PS3EYE_DRIVER sampleConstants sampleOpenCV envUnset
    handle320 (some sampleMat) (some sampleMat) nothingDelivered).getD calloc_CameraControl

/-- The handle of the generic OpenCV variant opened with camera 0. -/
def handleOpenCV : CameraControl :=
  ((camera_control_new_with_settings Backend.OPENCV sampleConstants envUnset oneCamera
    PSMoveTracker_ErrorCode.PSMove_Camera_Error_None 0 0 0 0 2).1).getD calloc_CameraControl

/-- The handle of the CL variant opened with camera 0. -/
def handleCL : CameraControl :=
  ((camera_control_new_with_settings Backend.CL_DRIVER sampleConstants envUnset oneCamera
    PSMoveTracker_ErrorCode.PSMove_Camera_Error_None 0 0 0 0 2).1).getD calloc_CameraControl

/-- A frame of 1 pixel by 4 rows, 3 channels, rows padded to 4 bytes: rows 0 and
2 black (0), rows 1 and 3 white (255). -/
def stripes : IplImage :=
  { nChannels := 3, depth := 8, width := 1, height := 4, widthStep := 4, imageData := 0,
    data := fun a => if (a / 4) % 2 = 1 then 255 else 0 }

/-- A handle of the PS3EYE variant whose frame buffer holds `stripes`, with
deinterlace enabled and no maps. -/
def handleStripes : CameraControl :=
  { calloc_CameraControl with
    eye := some (ps3eye_t.mk 0 1 4 60), framebgr := some stripes, width := 1, height := 4,
    deinterlace := PSMove_Bool.PSMove_True }
/-! ## Lemmas on the conversion arithmetic -/

theorem wrap32_of_range (x : Int) (h1 : -2147483648 ≤ x) (h2 : x ≤ 2147483647) :
    wrap32 x = x := by
  unfold wrap32; omega

theorem shift_bias : (((1 : Nat) <<< (ITUR_BT_601_SHIFT - 1) : Nat) : Int) = 524288 := by decide

/-- The `int` locals over the unbounded integers, in closed form. -/
theorem intermediates_id (s : Buffer) (i : Int) :
    intermediates id s i =
      { u := ((s (i + 1)).val : Int) - 128
        v := ((s (i + 3)).val : Int) - 128
        ruv := 524288 + 1673527 * (((s (i + 3)).val : Int) - 128)
        guv := 524288 - 852492 * (((s (i + 3)).val : Int) - 128)
          - 409993 * (((s (i + 1)).val : Int) - 128)
        buv := 524288 + 2116026 * (((s (i + 1)).val : Int) - 128)
        y00 := lumaScaled (s i).val
        y01 := lumaScaled (s (i + 2)).val } := by
  have hu : i + uidx = i + 1 := by simp [uidx, yIdx, uIdx]
  have hv : i + vidx = i + 3 := by simp [vidx, uidx, yIdx, uIdx]
  have hy : i + yIdx = i := by simp [yIdx]
  simp only [intermediates, id, hu, hv, hy, shift_bias, ITUR_BT_601_CVR, ITUR_BT_601_CVG,
    ITUR_BT_601_CUG, ITUR_BT_601_CUB, ITUR_BT_601_CY, _max, lumaScaled, Intermediates.mk.injEq]
  refine ⟨trivial, trivial, trivial, by omega, trivial, ?_, ?_⟩
  · split_ifs with h
    · rw [max_eq_left (by omega)]
    · rw [max_eq_right (by omega)]
  · split_ifs with h
    · rw [max_eq_left (by omega)]
    · rw [max_eq_right (by omega)]

theorem lumaScaled_bounds (y : Byte) :
    0 ≤ lumaScaled y.val ∧ lumaScaled y.val ≤ 291709538 := by
  have h := y.isLt
  unfold lumaScaled
  rcases le_total (0 : Int) ((y.val : Int) - 16) with h0 | h0
  · rw [max_eq_right h0]; omega
  · rw [max_eq_left h0]; omega

/-- With `wrap32` after every operation the `int` locals are those of the
unbounded computation. -/
theorem intermediates_wrap32 (s : Buffer) (i : Int) :
    intermediates wrap32 s i = intermediates id s i := by
  have hu : i + uidx = i + 1 := by simp [uidx, yIdx, uIdx]
  have hv : i + vidx = i + 3 := by simp [vidx, uidx, yIdx, uIdx]
  have hy : i + yIdx = i := by simp [yIdx]
  have b0 := (s i).isLt
  have b1 := (s (i + 1)).isLt
  have b2 := (s (i + 2)).isLt
  have b3 := (s (i + 3)).isLt
  simp only [intermediates, id, hu, hv, hy, shift_bias, ITUR_BT_601_CVR, ITUR_BT_601_CVG,
    ITUR_BT_601_CUG, ITUR_BT_601_CUB, ITUR_BT_601_CY, _max, Intermediates.mk.injEq, wrap32]
  refine ⟨?_, ?_, ?_, ?_, ?_, ?_, ?_⟩
  · omega
  · omega
  · omega
  · omega
  · omega
  · split_ifs <;> omega
  · split_ifs <;> omega

/-- On the range of an `int` the macro `_saturate` is the clamp to `[0,255]`. -/
theorem saturate_eq_sat (x : Int) (h1 : -2147483648 ≤ x) (h2 : x ≤ 2147483647) :
    ((_saturate x).val : Int) = sat x := by
  unfold _saturate sat toU8
  simp only []
  split_ifs <;> omega

theorem shiftRight_shift (x : Int) : x >>> ITUR_BT_601_SHIFT = x / 1048576 := by
  rw [Int.shiftRight_eq_div_pow]; rfl

/-- The six sums taken before the shift, over the unbounded integers, stay in
the range of an `int`. -/
theorem sums_inRange32 (s : Buffer) (i : Int) :
    inRange32 ((intermediates id s i).y00 + (intermediates id s i).buv) ∧
    inRange32 ((intermediates id s i).y00 + (intermediates id s i).guv) ∧
    inRange32 ((intermediates id s i).y00 + (intermediates id s i).ruv) ∧
    inRange32 ((intermediates id s i).y01 + (intermediates id s i).buv) ∧
    inRange32 ((intermediates id s i).y01 + (intermediates id s i).guv) ∧
    inRange32 ((intermediates id s i).y01 + (intermediates id s i).ruv) := by
  have b1 := (s (i + 1)).isLt
  have b3 := (s (i + 3)).isLt
  have l0 := lumaScaled_bounds (s i)
  have l2 := lumaScaled_bounds (s (i + 2))
  rw [intermediates_id]
  simp only [inRange32]
  omega

/-- The locals `ruv`, `guv`, `buv`, `y00`, `y01`, over the unbounded integers,
stay in the range of an `int`. -/
theorem locals_inRange32 (s : Buffer) (i : Int) :
    inRange32 (intermediates id s i).ruv ∧ inRange32 (intermediates id s i).guv ∧
    inRange32 (intermediates id s i).buv ∧ inRange32 (intermediates id s i).y00 ∧
    inRange32 (intermediates id s i).y01 := by
  have b1 := (s (i + 1)).isLt
  have b3 := (s (i + 3)).isLt
  have l0 := lumaScaled_bounds (s i)
  have l2 := lumaScaled_bounds (s (i + 2))
  rw [intermediates_id]
  simp only [inRange32]
  omega

/-- One loop iteration computes the same stores with 32-bit and with unbounded
arithmetic. -/
theorem pixel_pair_wrap32 (s : Buffer) (i row : Int) (dst : Buffer) :
    pixel_pair wrap32 s i row dst = pixel_pair id s i row dst := by
  obtain ⟨h1, h2, h3, h4, h5, h6⟩ := sums_inRange32 s i
  simp only [pixel_pair, intermediates_wrap32, id]
  rw [wrap32_of_range _ h1.1 h1.2, wrap32_of_range _ h2.1 h2.2, wrap32_of_range _ h3.1 h3.2,
    wrap32_of_range _ h4.1 h4.2, wrap32_of_range _ h5.1 h5.2, wrap32_of_range _ h6.1 h6.2]

theorem chan_eq (x y : Int) (h : inRange32 x) (hxy : x = y) :
    ((_saturate (x >>> ITUR_BT_601_SHIFT)).val : Int) = sat (y / 1048576) := by
  obtain ⟨h1, h2⟩ := h
  subst hxy
  rw [shiftRight_shift]
  apply saturate_eq_sat <;> omega

/-- The six bytes one loop iteration stores. -/
theorem pixel_pair_written (s : Buffer) (i row : Int) (dst : Buffer) (t : Int)
    (h0 : 0 ≤ t) (ht6 : t < 6) :
    ((pixel_pair wrap32 s i row dst (row + t)).val : Int) =
      specPair (s i).val (s (i + 1)).val (s (i + 2)).val (s (i + 3)).val t := by
  obtain ⟨h1, h2, h3, h4, h5, h6⟩ := sums_inRange32 s i
  rw [pixel_pair_wrap32]
  have ht : t = 0 ∨ t = 1 ∨ t = 2 ∨ t = 3 ∨ t = 4 ∨ t = 5 := by omega
  rcases ht with rfl | rfl | rfl | rfl | rfl | rfl
  · simp [pixel_pair, store, bIdx, specPair, specB]
    exact chan_eq _ _ h1 (by rw [intermediates_id]; simp only []; omega)
  · simp [pixel_pair, store, bIdx, specPair, specG]
    exact chan_eq _ _ h2 (by rw [intermediates_id]; simp only []; omega)
  · simp [pixel_pair, store, bIdx, specPair, specR]
    exact chan_eq _ _ h3 (by rw [intermediates_id]; simp only []; omega)
  · simp [pixel_pair, store, bIdx, specPair, specB]
    exact chan_eq _ _ h4 (by rw [intermediates_id]; simp only []; omega)
  · simp [pixel_pair, store, bIdx, specPair, specG]
    exact chan_eq _ _ h5 (by rw [intermediates_id]; simp only []; omega)
  · simp [pixel_pair, store, bIdx, specPair, specR]
    exact chan_eq _ _ h6 (by rw [intermediates_id]; simp only []; omega)

/-- One loop iteration stores nowhere but at `row[0..5]`. -/
theorem pixel_pair_other (norm : Int → Int) (s : Buffer) (i row : Int) (dst : Buffer) (a : Int)
    (h : a < row ∨ row + 6 ≤ a) : pixel_pair norm s i row dst a = dst a := by
  simp only [pixel_pair, store, bIdx]
  repeat rw [if_neg (by omega)]

/-! ## Lemmas on the two loops -/

/-- The inner loop stores nowhere below `row`. -/
theorem inner_loop_below (norm : Int → Int) (s : Buffer) (width : Int) (a : Int) :
    ∀ (fuel : Nat) (i row : Int) (dst : Buffer), a < row →
      inner_loop norm s width fuel i row dst a = dst a := by
  intro fuel
  induction fuel with
  | zero => intro i row dst _; rfl
  | succ n ih =>
    intro i row dst h
    simp only [inner_loop]
    split_ifs with hc
    · rw [ih (i + 4) (row + 6) _ (by omega)]
      exact pixel_pair_other norm s i row dst a (Or.inl h)
    · rfl

/-- The inner loop processes pair `k` when `i + 4 * k < 2 * width` and the fuel
reaches it. -/
theorem inner_loop_written (s : Buffer) (width : Int) (t : Int) (h0 : 0 ≤ t) (h6 : t < 6) :
    ∀ (fuel : Nat) (k : Nat) (i row : Int) (dst : Buffer), k < fuel →
      i + 4 * (k : Int) < 2 * width →
      ((inner_loop wrap32 s width fuel i row dst (row + 6 * (k : Int) + t)).val : Int) =
        specPair (s (i + 4 * k)).val (s (i + 4 * k + 1)).val (s (i + 4 * k + 2)).val
          (s (i + 4 * k + 3)).val t := by
  intro fuel
  induction fuel with
  | zero => intro k i row dst hk; omega
  | succ n ih =>
    intro k i row dst hk hlt
    have hc : i < 2 * width := by omega
    simp only [inner_loop, if_pos hc]
    cases k with
    | zero =>
      rw [inner_loop_below _ _ _ _ _ _ _ _ (by push_cast; omega)]
      simpa using pixel_pair_written s i row dst t h0 h6
    | succ k =>
      have := ih k (i + 4) (row + 6) (pixel_pair wrap32 s i row dst) (by omega)
        (by push_cast at hlt ⊢; omega)
      have e1 : row + 6 * ((k + 1 : Nat) : Int) + t = row + 6 + 6 * (k : Int) + t := by
        push_cast; ring
      have e2 : i + 4 * ((k + 1 : Nat) : Int) = i + 4 + 4 * (k : Int) := by push_cast; ring
      rw [e1, e2]
      exact this

/-- The inner loop ends by its condition: once `fuel` covers the iterations
left, more fuel changes nothing. -/
theorem inner_loop_fuel (norm : Int → Int) (s : Buffer) (width : Int) (extra : Nat) :
    ∀ (fuel : Nat) (i row : Int) (dst : Buffer), 2 * width ≤ i + 4 * (fuel : Int) →
      inner_loop norm s width (fuel + extra) i row dst = inner_loop norm s width fuel i row dst := by
  intro fuel
  induction fuel with
  | zero =>
    intro i row dst h
    cases extra with
    | zero => rfl
    | succ e =>
      have hc : ¬ i < 2 * width := by push_cast at h; omega
      simp only [Nat.zero_add, inner_loop, if_neg hc]
  | succ n ih =>
    intro i row dst h
    rw [Nat.add_right_comm]
    simp only [inner_loop]
    split_ifs with hc
    · exact ih (i + 4) (row + 6) _ (by push_cast at h; omega)
    · rfl

/-- The outer loop ends by its condition: once `fuel` covers the rows left, more
fuel changes nothing. -/
theorem outer_loop_fuel (norm : Int → Int) (s : Buffer) (stride width height : Int)
    (extra : Nat) :
    ∀ (fuel : Nat) (j off : Int) (dst : Buffer), height ≤ j + (fuel : Int) →
      outer_loop norm s stride width height (fuel + extra) j off dst =
        outer_loop norm s stride width height fuel j off dst := by
  intro fuel
  induction fuel with
  | zero =>
    intro j off dst h
    cases extra with
    | zero => rfl
    | succ e =>
      have hc : ¬ j < height := by push_cast at h; omega
      simp only [Nat.zero_add, outer_loop, if_neg hc]
  | succ n ih =>
    intro j off dst h
    rw [Nat.add_right_comm]
    simp only [outer_loop]
    split_ifs with hc
    · exact ih (j + 1) (off + stride) _ (by push_cast at h; omega)
    · rfl

/-- The fuel `yuv422_to_bgr_with` gives its loops never runs out: with any extra
fuel the outer loop computes the same buffer, and so does each inner loop. -/
theorem yuv422_to_bgr_fuel (norm : Int → Int) (s : Buffer) (stride : Int) (dst : Buffer)
    (width height : Int) (extra : Nat) :
    outer_loop norm s stride width height (height.toNat + extra) 0 0 dst =
        yuv422_to_bgr_with norm s stride dst width height ∧
    ∀ row : Int, inner_loop norm s width ((2 * width).toNat + extra) 0 row dst =
        inner_loop norm s width (2 * width).toNat 0 row dst :=
  ⟨outer_loop_fuel norm s stride width height extra height.toNat 0 0 dst (by omega),
    fun row => inner_loop_fuel norm s width extra (2 * width).toNat 0 row dst (by omega)⟩

/-- The inner loop stores nowhere at or above `row + 6 * n` when `n` iterations
exhaust its condition. -/
theorem inner_loop_above (norm : Int → Int) (s : Buffer) (width : Int) (a : Int) :
    ∀ (fuel : Nat) (n : Nat) (i row : Int) (dst : Buffer), 2 * width ≤ i + 4 * (n : Int) →
      row + 6 * (n : Int) ≤ a → inner_loop norm s width fuel i row dst a = dst a := by
  intro fuel
  induction fuel with
  | zero => intro n i row dst _ _; rfl
  | succ f ih =>
    intro n i row dst hn ha
    simp only [inner_loop]
    split_ifs with hc
    · cases n with
      | zero => push_cast at hn; omega
      | succ m =>
        push_cast at hn ha
        rw [ih m (i + 4) (row + 6) _ (by omega) (by omega)]
        exact pixel_pair_other norm s i row dst a (Or.inr (by omega))
    · rfl

/-- The outer loop stores nowhere at or above `(width*3)*(height-1) + 6*n` when
`n` iterations exhaust the condition of the inner loop. -/
theorem outer_loop_above (norm : Int → Int) (s : Buffer) (stride width height : Int)
    (hw : 0 ≤ width) (n : Nat) (hn : 2 * width ≤ 4 * (n : Int)) (a : Int)
    (ha : (width * 3) * (height - 1) + 6 * (n : Int) ≤ a) :
    ∀ (fuel : Nat) (j off : Int) (dst : Buffer),
      outer_loop norm s stride width height fuel j off dst a = dst a := by
  intro fuel
  induction fuel with
  | zero => intro j off dst; rfl
  | succ f ih =>
    intro j off dst
    simp only [outer_loop]
    split_ifs with hc
    · rw [ih (j + 1) (off + stride) _]
      have hrow : (width * 3) * j ≤ (width * 3) * (height - 1) :=
        mul_le_mul_of_nonneg_left (by omega) (by omega)
      exact inner_loop_above norm _ width a _ n 0 _ dst (by omega) (by omega)
    · rfl

/-- The outer loop, entered at row `j`, stores nowhere below the start of row `j`. -/
theorem outer_loop_below (norm : Int → Int) (s : Buffer) (stride width height : Int)
    (hw : 0 ≤ width) (a : Int) :
    ∀ (fuel : Nat) (j off : Int) (dst : Buffer), 0 ≤ j → a < (width * 3) * j →
      outer_loop norm s stride width height fuel j off dst a = dst a := by
  intro fuel
  induction fuel with
  | zero => intro j off dst _ _; rfl
  | succ n ih =>
    intro j off dst hj h
    simp only [outer_loop]
    split_ifs with hc
    · have e : (width * 3) * (j + 1) = (width * 3) * j + width * 3 := by ring
      rw [ih (j + 1) (off + stride) _ (by omega) (by rw [e]; omega)]
      exact inner_loop_below norm _ width a _ 0 _ dst h
    · rfl

/-- The outer loop, entered at row `j`, leaves in row `j + d` the bytes of the
formula, at the positions of pair `k` that lie inside the row. -/
theorem outer_loop_written (s : Buffer) (stride width height : Int)
    (k : Nat) (hk : 2 * (k : Int) < width)
    (t : Int) (h0 : 0 ≤ t) (h6 : t < 6) (hin : 6 * (k : Int) + t < width * 3) :
    ∀ (fuel : Nat) (d : Nat) (j off : Int) (dst : Buffer), d < fuel → 0 ≤ j →
      j + (d : Int) < height →
      ((outer_loop wrap32 s stride width height fuel j off dst
          ((width * 3) * (j + (d : Int)) + 6 * (k : Int) + t)).val : Int) =
        specPair (s (off + (d : Int) * stride + 4 * k)).val
          (s (off + (d : Int) * stride + 4 * k + 1)).val
          (s (off + (d : Int) * stride + 4 * k + 2)).val
          (s (off + (d : Int) * stride + 4 * k + 3)).val t := by
  have hw : 0 ≤ width := by omega
  intro fuel
  induction fuel with
  | zero => intro d j off dst hd; omega
  | succ n ih =>
    intro d j off dst hd hj hlt
    have hc : j < height := by omega
    simp only [outer_loop, if_pos hc]
    have e : (width * 3) * (j + 1) = (width * 3) * j + width * 3 := by ring
    cases d with
    | zero =>
      simp only [Nat.cast_zero, add_zero, zero_mul]
      rw [outer_loop_below wrap32 s stride width height hw _ n (j + 1) (off + stride) _
        (by omega) (by rw [e]; omega)]
      have := inner_loop_written (fun a => s (off + a)) width t h0 h6 (2 * width).toNat k 0
        ((width * 3) * j) dst (by omega) (by omega)
      simp only [zero_add] at this
      simp only [← add_assoc] at this
      exact this
    | succ d =>
      have := ih d (j + 1) (off + stride) (inner_loop wrap32 (fun a => s (off + a)) width
        (2 * width).toNat 0 ((width * 3) * j) dst) (by omega) (by omega)
        (by push_cast at hlt ⊢; omega)
      have e1 : j + ((d + 1 : Nat) : Int) = j + 1 + (d : Int) := by push_cast; ring
      have e2 : off + ((d + 1 : Nat) : Int) * stride = off + stride + (d : Int) * stride := by
        push_cast; ring
      rw [e1, e2]
      exact this

theorem inner_loop_wrap32 (s : Buffer) (width : Int) :
    ∀ (fuel : Nat) (i row : Int) (dst : Buffer),
      inner_loop wrap32 s width fuel i row dst = inner_loop id s width fuel i row dst := by
  intro fuel
  induction fuel with
  | zero => intro i row dst; rfl
  | succ n ih => intro i row dst; simp only [inner_loop, pixel_pair_wrap32, ih]

theorem outer_loop_wrap32 (s : Buffer) (stride width height : Int) :
    ∀ (fuel : Nat) (j off : Int) (dst : Buffer),
      outer_loop wrap32 s stride width height fuel j off dst =
        outer_loop id s stride width height fuel j off dst := by
  intro fuel
  induction fuel with
  | zero => intro j off dst; rfl
  | succ n ih => intro j off dst; simp only [outer_loop, inner_loop_wrap32, ih]

/-! ## Theorems on `yuv422_to_bgr` -/

/-- C1: for every even width, every height, every stride and every source
buffer (in particular width at least 2, height at least 0 and stride at least
`2*width`), `yuv422_to_bgr` leaves, for each row `j < height` and each pixel pair
`k < width/2`, with `(Y0,U,Y1,V)` the four source bytes at `j*stride + 4k`, the six
bytes `(B0,G0,R0,B1,G1,R1)` of the BT.601 formula at `3*width*j + 6k` of the
destination; rows are read at multiples of `stride`.  The code, run on the units
`(16,128,128)`, `(235,128,128)` and `(81,90,240)`, gives BGR `(0,0,0)`, three equal
channels, and `(0,0,254)`. -/
theorem yuv422_to_bgr_formula (yuv_src dst : Buffer) (stride width height : Int)
    (heven : width % 2 = 0) :
    (∀ j k : Int, 0 ≤ j → j < height → 0 ≤ k → k < width / 2 →
      ((yuv422_to_bgr yuv_src stride dst width height (3 * width * j + 6 * k)).val : Int) =
          specB (yuv_src (j * stride + 4 * k)).val (yuv_src (j * stride + 4 * k + 1)).val ∧
      ((yuv422_to_bgr yuv_src stride dst width height (3 * width * j + 6 * k + 1)).val : Int) =
          specG (yuv_src (j * stride + 4 * k)).val (yuv_src (j * stride + 4 * k + 1)).val
            (yuv_src (j * stride + 4 * k + 3)).val ∧
      ((yuv422_to_bgr yuv_src stride dst width height (3 * width * j + 6 * k + 2)).val : Int) =
          specR (yuv_src (j * stride + 4 * k)).val (yuv_src (j * stride + 4 * k + 3)).val ∧
      ((yuv422_to_bgr yuv_src stride dst width height (3 * width * j + 6 * k + 3)).val : Int) =
          specB (yuv_src (j * stride + 4 * k + 2)).val (yuv_src (j * stride + 4 * k + 1)).val ∧
      ((yuv422_to_bgr yuv_src stride dst width height (3 * width * j + 6 * k + 4)).val : Int) =
          specG (yuv_src (j * stride + 4 * k + 2)).val (yuv_src (j * stride + 4 * k + 1)).val
            (yuv_src (j * stride + 4 * k + 3)).val ∧
      ((yuv422_to_bgr yuv_src stride dst width height (3 * width * j + 6 * k + 5)).val : Int) =
          specR (yuv_src (j * stride + 4 * k + 2)).val (yuv_src (j * stride + 4 * k + 3)).val) ∧
    (∀ a : Int, 0 ≤ a → a < 3 →
      yuv422_to_bgr (unitBuffer 16 128 128) 4 (fun _ => 255) 2 1 a = 0) ∧
    (yuv422_to_bgr (unitBuffer 235 128 128) 4 (fun _ => 0) 2 1 0 =
        yuv422_to_bgr (unitBuffer 235 128 128) 4 (fun _ => 0) 2 1 1 ∧
      yuv422_to_bgr (unitBuffer 235 128 128) 4 (fun _ => 0) 2 1 1 =
        yuv422_to_bgr (unitBuffer 235 128 128) 4 (fun _ => 0) 2 1 2) ∧
    (yuv422_to_bgr (unitBuffer 81 90 240) 4 (fun _ => 7) 2 1 0 = 0 ∧
      yuv422_to_bgr (unitBuffer 81 90 240) 4 (fun _ => 7) 2 1 1 = 0 ∧
      yuv422_to_bgr (unitBuffer 81 90 240) 4 (fun _ => 7) 2 1 2 = 254) := by
  refine ⟨?_, ?_, ?_, ?_⟩
  · intro j k hj hjh hk hkw
    obtain ⟨kn, rfl⟩ := Int.eq_ofNat_of_zero_le hk
    obtain ⟨jn, rfl⟩ := Int.eq_ofNat_of_zero_le hj
    have key : ∀ t : Int, 0 ≤ t → t < 6 →
        ((yuv422_to_bgr yuv_src stride dst width height
            (3 * width * (jn : Int) + 6 * (kn : Int) + t)).val : Int) =
          specPair (yuv_src ((jn : Int) * stride + 4 * (kn : Int))).val
            (yuv_src ((jn : Int) * stride + 4 * (kn : Int) + 1)).val
            (yuv_src ((jn : Int) * stride + 4 * (kn : Int) + 2)).val
            (yuv_src ((jn : Int) * stride + 4 * (kn : Int) + 3)).val t := by
      intro t h0 h6
      have := outer_loop_written yuv_src stride width height kn (by omega) t h0 h6 (by omega)
        height.toNat jn 0 0 dst (by omega) le_rfl (by omega)
      simp only [zero_add] at this
      have e : 3 * width * (jn : Int) = width * 3 * (jn : Int) := by ring
      rw [e]
      exact this
    have k0 := key 0 (by decide) (by decide)
    have k1 := key 1 (by decide) (by decide)
    have k2 := key 2 (by decide) (by decide)
    have k3 := key 3 (by decide) (by decide)
    have k4 := key 4 (by decide) (by decide)
    have k5 := key 5 (by decide) (by decide)
    simp only [specPair, add_zero] at k0 k1 k2 k3 k4 k5
    exact ⟨k0, k1, k2, k3, k4, k5⟩
  · intro a h0 h3
    have ha : a = 0 ∨ a = 1 ∨ a = 2 := by omega
    rcases ha with rfl | rfl | rfl <;> decide
  · decide
  · decide

/-- Witness of C1 at width 2, height 1, stride 4: the first byte of the output
is the blue channel of the formula. -/
theorem yuv422_to_bgr_formula_witness :
    (2 : Int) % 2 = 0 ∧
      ((yuv422_to_bgr (unitBuffer 81 90 240) 4 (fun _ => 7) 2 1 (3 * 2 * 0 + 6 * 0)).val : Int) =
        specB (unitBuffer 81 90 240 (0 * 4 + 4 * 0)).val
          (unitBuffer 81 90 240 (0 * 4 + 4 * 0 + 1)).val :=
  ⟨by decide,
    ((yuv422_to_bgr_formula (unitBuffer 81 90 240) (fun _ => 7) 4 2 1 (by decide)).1 0 0
      (by decide) (by decide) (by decide) (by decide)).1⟩

/-- C2, counterexample: at width 1, height 1 (a destination of `1*1*3 = 3`
bytes, all zero before the call) the call is neither rejected nor kept inside
the destination: offsets 3, 4 and 5, beyond the destination and beyond row 0,
are written. -/
theorem yuv422_to_bgr_odd_width_overrun :
    (3 : Int) * 1 * 1 ≤ 3 ∧
      yuv422_to_bgr (unitBuffer 235 128 128) 4 (fun _ => 0) 1 1 3 = 255 ∧
      yuv422_to_bgr (unitBuffer 235 128 128) 4 (fun _ => 0) 1 1 4 = 255 ∧
      yuv422_to_bgr (unitBuffer 235 128 128) 4 (fun _ => 0) 1 1 5 = 255 := by
  decide

/-- C2, amended: `yuv422_to_bgr` does not validate `width`.  For every odd width
at least 1 (and any height, stride, source buffer) the call is neither rejected
nor is the row truncated: every pixel `p < width` of every row `j < height` is
converted, the three bytes at `3*width*j + 3p` being the B, G, R of the formula
for the luma byte `src[j*stride + 2p]` with the chroma of the pixel's 4-byte
unit.  It writes no destination byte outside the first `width*height*3 + 3`
bytes, and while it converts row `j` no byte below `3*width*j` or at an offset
at or above `3*width*(j+1) + 3`. -/
theorem yuv422_to_bgr_odd_width (yuv_src : Buffer) (stride width height : Int)
    (hodd : width % 2 = 1) (hw1 : 1 ≤ width) :
    (∀ (dst : Buffer) (j p c : Int), 0 ≤ j → j < height → 0 ≤ p → p < width → 0 ≤ c → c < 3 →
      ((yuv422_to_bgr yuv_src stride dst width height (3 * width * j + 3 * p + c)).val : Int) =
        specPixel (yuv_src (j * stride + 2 * p)).val
          (yuv_src (j * stride + 4 * (p / 2) + 1)).val
          (yuv_src (j * stride + 4 * (p / 2) + 3)).val c) ∧
    (∀ (dst : Buffer) (a : Int), a < 0 ∨ width * height * 3 + 3 ≤ a →
      yuv422_to_bgr yuv_src stride dst width height a = dst a) ∧
    (∀ (dst : Buffer) (j off a : Int), a < 3 * width * j ∨ 3 * width * (j + 1) + 3 ≤ a →
      inner_loop wrap32 (fun x => yuv_src (off + x)) width (2 * width).toNat 0
        ((width * 3) * j) dst a = dst a) := by
  obtain ⟨n, hn⟩ := Int.eq_ofNat_of_zero_le (show 0 ≤ (width + 1) / 2 by omega)
  refine ⟨?_, ?_, ?_⟩
  · intro dst j p c hj hjh hp hpw hc hc3
    obtain ⟨jn, rfl⟩ := Int.eq_ofNat_of_zero_le hj
    obtain ⟨kn, hkn⟩ := Int.eq_ofNat_of_zero_le (show 0 ≤ p / 2 by omega)
    have key := outer_loop_written yuv_src stride width height kn (by omega) (3 * (p % 2) + c)
      (by omega) (by omega) (by omega) height.toNat jn 0 0 dst (by omega) le_rfl (by omega)
    simp only [zero_add] at key
    have e : 3 * width * (jn : Int) + 3 * p + c =
        width * 3 * (jn : Int) + 6 * (kn : Int) + (3 * (p % 2) + c) := by
      have : p = 2 * (p / 2) + p % 2 := by omega
      rw [← hkn]
      linarith
    rw [yuv422_to_bgr, yuv422_to_bgr_with, e, key, ← hkn]
    have hc' : c = 0 ∨ c = 1 ∨ c = 2 := by omega
    rcases Int.emod_two_eq_zero_or_one p with h2 | h2
    · have e1 : (jn : Int) * stride + 2 * p = (jn : Int) * stride + 4 * (p / 2) := by omega
      rw [h2, e1]
      rcases hc' with rfl | rfl | rfl <;> simp [specPair, specPixel]
    · have e1 : (jn : Int) * stride + 2 * p = (jn : Int) * stride + 4 * (p / 2) + 2 := by omega
      rw [h2, e1]
      rcases hc' with rfl | rfl | rfl <;> simp [specPair, specPixel]
  · intro dst a ha
    rw [yuv422_to_bgr, yuv422_to_bgr_with]
    rcases ha with ha | ha
    · exact outer_loop_below wrap32 yuv_src stride width height (by omega) a _ 0 0 dst le_rfl
        (by omega)
    · have e : (width * 3) * (height - 1) + 6 * (n : Int) = width * height * 3 + 3 := by
        have : 6 * (n : Int) = 3 * width + 3 := by omega
        rw [this]; ring
      exact outer_loop_above wrap32 yuv_src stride width height (by omega) n (by omega) a
        (by rw [e]; exact ha) _ 0 0 dst
  · intro dst j off a ha
    rcases ha with ha | ha
    · exact inner_loop_below wrap32 _ width a _ 0 _ dst (by
        have e : 3 * width * j = width * 3 * j := by ring
        rw [← e]; exact ha)
    · have e : 3 * width * (j + 1) + 3 = width * 3 * j + 6 * (n : Int) := by
        have : 6 * (n : Int) = 3 * width + 3 := by omega
        rw [this]; ring
      exact inner_loop_above wrap32 _ width a _ n 0 _ dst (by omega) (by rw [← e]; exact ha)

/-- Witness of the amended C2 at width 1, height 1: offset 6, beyond the first
`1*1*3 + 3` bytes, keeps the byte it held. -/
theorem yuv422_to_bgr_odd_width_witness :
    ((1 : Int) % 2 = 1 ∧ (1 : Int) ≤ 1) ∧
      yuv422_to_bgr (unitBuffer 81 90 240) 4 (fun _ => 7) 1 1 6 = (fun _ => 7) 6 :=
  ⟨by decide,
    (yuv422_to_bgr_odd_width (unitBuffer 81 90 240) 4 1 1 (by decide) (by decide)).2.1
      (fun _ => 7) 6 (Or.inr (by decide))⟩

/-- C10: for every source unit `(Y0, U, Y1, V)` of bytes, the locals `ruv`,
`guv`, `buv`, `y00`, `y01` and the six sums taken before the shift, computed over
the unbounded integers, lie in the signed 32-bit range; the locals computed with
32-bit wrap-around are the unbounded ones, and the whole conversion with 32-bit
wrap-around arithmetic equals the conversion over the unbounded integers. -/
theorem yuv422_to_bgr_no_overflow (yuv_src : Buffer) (i : Int) :
    (inRange32 (intermediates id yuv_src i).ruv ∧ inRange32 (intermediates id yuv_src i).guv ∧
      inRange32 (intermediates id yuv_src i).buv ∧ inRange32 (intermediates id yuv_src i).y00 ∧
      inRange32 (intermediates id yuv_src i).y01) ∧
    (inRange32 ((intermediates id yuv_src i).y00 + (intermediates id yuv_src i).buv) ∧
      inRange32 ((intermediates id yuv_src i).y00 + (intermediates id yuv_src i).guv) ∧
      inRange32 ((intermediates id yuv_src i).y00 + (intermediates id yuv_src i).ruv) ∧
      inRange32 ((intermediates id yuv_src i).y01 + (intermediates id yuv_src i).buv) ∧
      inRange32 ((intermediates id yuv_src i).y01 + (intermediates id yuv_src i).guv) ∧
      inRange32 ((intermediates id yuv_src i).y01 + (intermediates id yuv_src i).ruv)) ∧
    intermediates wrap32 yuv_src i = intermediates id yuv_src i ∧
    (∀ (stride : Int) (dst : Buffer) (width height : Int),
      yuv422_to_bgr yuv_src stride dst width height =
        yuv422_to_bgr_with id yuv_src stride dst width height) :=
  ⟨locals_inRange32 yuv_src i, sums_inRange32 yuv_src i, intermediates_wrap32 yuv_src i,
    fun stride dst width height => by
      simp only [yuv422_to_bgr, yuv422_to_bgr_with, outer_loop_wrap32]⟩

/-! ## Lemmas on the handle -/

theorem new_with_settings_maps (b : Backend) (K : Constants) (env : Environment)
    (drv : Drivers) (g g' : PSMoveTracker_ErrorCode)
    (cameraID width height framerate cam_type : Int) (cc : CameraControl)
    (h : camera_control_new_with_settings b K env drv g cameraID width height framerate cam_type
      = (some cc, g')) : cc.mapx = none ∧ cc.mapy = none := by
  unfold camera_control_new_with_settings at h
  cases b
  · simp only [] at h
    split_ifs at h <;> simp only [Prod.mk.injEq, Option.some.injEq] at h
    all_goals first
      | (obtain ⟨rfl, _⟩ := h; simp [calloc_CameraControl])
      | exact absurd h.1 (by simp)
  · simp only [] at h
    split_ifs at h <;> simp only [Prod.mk.injEq, Option.some.injEq] at h
    all_goals first
      | (obtain ⟨rfl, _⟩ := h; simp [calloc_CameraControl])
      | exact absurd h.1 (by simp)
  · simp only [] at h
    split at h
    all_goals
      split_ifs at h <;> simp only [Prod.mk.injEq, Option.some.injEq] at h
      all_goals (obtain ⟨rfl, _⟩ := h; simp [calloc_CameraControl])

theorem query_frame_acquire_maps (b : Backend) (cc cc' : CameraControl) (d : Delivery)
    (ref : FrameRef) (result : Option IplImage) (nf : PSMove_Bool)
    (h : query_frame_acquire b cc d = some (cc', ref, result, nf)) :
    cc'.mapx = cc.mapx ∧ cc'.mapy = cc.mapy ∧ cc'.frame3chUndistort = cc.frame3chUndistort := by
  unfold query_frame_acquire at h
  cases b
  · simp only [] at h
    split at h
    · simp only [Option.some.injEq, Prod.mk.injEq] at h
      obtain ⟨rfl, _⟩ := h
      exact ⟨rfl, rfl, rfl⟩
    · exact absurd h (by simp)
  · simp only [] at h
    split at h
    · split at h
      · simp only [Option.some.injEq, Prod.mk.injEq] at h
        obtain ⟨rfl, _⟩ := h
        exact ⟨rfl, rfl, rfl⟩
      · simp only [Option.some.injEq, Prod.mk.injEq] at h
        obtain ⟨rfl, _⟩ := h
        exact ⟨rfl, rfl, rfl⟩
    · exact absurd h (by simp)
  · simp only [Option.some.injEq, Prod.mk.injEq] at h
    obtain ⟨rfl, _⟩ := h
    exact ⟨rfl, rfl, rfl⟩

theorem query_frame_deinterlace_maps (cc cc' : CameraControl) (ref : FrameRef)
    (result result' : Option IplImage)
    (h : query_frame_deinterlace cc ref result = some (cc', result')) :
    cc'.mapx = cc.mapx ∧ cc'.mapy = cc.mapy ∧ cc'.frame3chUndistort = cc.frame3chUndistort := by
  unfold query_frame_deinterlace at h
  split_ifs at h
  · cases result with
    | none => exact absurd h (by simp)
    | some img =>
      cases ref <;> simp only [Option.some.injEq, Prod.mk.injEq] at h <;>
        (obtain ⟨rfl, _⟩ := h; exact ⟨rfl, rfl, rfl⟩)
  · simp only [Option.some.injEq, Prod.mk.injEq] at h
    obtain ⟨rfl, _⟩ := h
    exact ⟨rfl, rfl, rfl⟩

theorem query_frame_undistort_maps (cv : OpenCV) (cc cc' : CameraControl)
    (result result' : Option IplImage)
    (h : query_frame_undistort cv cc result = some (cc', result')) :
    cc'.mapx = cc.mapx ∧ cc'.mapy = cc.mapy ∧
      (cc'.frame3chUndistort.isSome = cc.frame3chUndistort.isSome) := by
  unfold query_frame_undistort at h
  split at h
  · split at h
    · simp only [Option.some.injEq, Prod.mk.injEq] at h
      obtain ⟨rfl, rfl⟩ := h
      refine ⟨rfl, rfl, ?_⟩
      simp [*]
    · exact absurd h (by simp)
  · simp only [Option.some.injEq, Prod.mk.injEq] at h
    obtain ⟨rfl, _⟩ := h
    exact ⟨rfl, rfl, rfl⟩

/-- A frame query leaves both map tables as they are. -/
theorem query_frame_maps (b : Backend) (cv : OpenCV) (cc cc' : CameraControl) (d : Delivery)
    (result : Option IplImage) (nf : PSMove_Bool)
    (h : camera_control_query_frame b cv cc d = some (cc', result, nf)) :
    cc'.mapx = cc.mapx ∧ cc'.mapy = cc.mapy := by
  unfold camera_control_query_frame at h
  cases h1 : query_frame_acquire b cc d with
  | none => rw [h1] at h; exact absurd h (by simp)
  | some r1 =>
    obtain ⟨c1, ref, res1, nf1⟩ := r1
    rw [h1] at h
    simp only [] at h
    cases h2 : query_frame_deinterlace c1 ref res1 with
    | none => rw [h2] at h; exact absurd h (by simp)
    | some r2 =>
      obtain ⟨c2, res2⟩ := r2
      rw [h2] at h
      simp only [] at h
      cases h3 : query_frame_undistort cv c2 res2 with
      | none => rw [h3] at h; exact absurd h (by simp)
      | some r3 =>
        obtain ⟨c3, res3⟩ := r3
        rw [h3] at h
        simp only [Option.some.injEq, Prod.mk.injEq] at h
        obtain ⟨rfl, _, _⟩ := h
        have a1 := query_frame_acquire_maps b cc c1 d ref res1 nf1 h1
        have a2 := query_frame_deinterlace_maps c1 c2 ref res1 res2 h2
        have a3 := query_frame_undistort_maps cv c2 c3 res2 res3 h3
        exact ⟨by rw [a3.1, a2.1, a1.1], by rw [a3.2.1, a2.2.1, a1.2.1]⟩

/-- The two guarded `cvReleaseImage` calls leave both map pointers null. -/
theorem reset_calibration_eq (cc : CameraControl) :
    camera_control_reset_calibration cc = { cc with mapx := none, mapy := none } := by
  obtain ⟨_, _, _, _, _, _, _, _, _, _, _, mapx, mapy, _, _⟩ := cc
  cases mapx <;> cases mapy <;> rfl

theorem read_calibration_release (b : Backend) (K : Constants) (cv : OpenCV)
    (env : Environment) (cc : CameraControl) (intrinsic distortion : Option CvMat)
    (d : Delivery) :
    camera_control_read_calibration b K cv env cc intrinsic distortion d =
      camera_control_read_calibration b K cv env { cc with mapx := none, mapy := none }
        intrinsic distortion d := by
  obtain ⟨_, _, _, _, _, _, _, _, _, _, _, mapx, mapy, _, _⟩ := cc
  cases mapx <;> cases mapy <;> rfl

/-- After a calibration load in which both files load, both maps are present
with the resolution of `get_metrics`; the handle's own width and height are
those before the call. -/
theorem read_calibration_loaded (b : Backend) (K : Constants) (cv : OpenCV)
    (env : Environment) (cc cc' : CameraControl) (intrinsic distortion : CvMat) (d : Delivery)
    (h : camera_control_read_calibration b K cv env cc (some intrinsic) (some distortion) d
      = some cc') :
    cc'.mapx.map (fun m => (m.width, m.height)) = some (get_metrics K env) ∧
    cc'.mapy.map (fun m => (m.width, m.height)) = some (get_metrics K env) := by
  rw [read_calibration_release] at h
  unfold camera_control_read_calibration at h
  simp only [Option.isSome_none, Bool.false_eq_true, if_false] at h
  split at h
  · exact absurd h (by simp)
  · simp only [Option.some.injEq] at h
    subst h
    exact ⟨rfl, rfl⟩

/-- A calibration load in which a file fails to load returns with both map
pointers null and nothing else changed. -/
theorem read_calibration_failed (b : Backend) (K : Constants) (cv : OpenCV)
    (env : Environment) (cc : CameraControl) (intrinsic distortion : Option CvMat)
    (d : Delivery) (h : intrinsic = none ∨ distortion = none) :
    camera_control_read_calibration b K cv env cc intrinsic distortion d =
      some { cc with mapx := none, mapy := none } := by
  rw [read_calibration_release]
  unfold camera_control_read_calibration
  rcases h with rfl | rfl
  · rfl
  · cases intrinsic <;> rfl

/-- In the PS3EYE variant, with deinterlace off, a frame query in which the
driver delivers no pixels stores `PSMove_False` in `*out_new_frame` and leaves
the frame buffer `framebgr` as it was. -/
theorem query_frame_ps3eye_no_delivery (cv : OpenCV) (cc cc' : CameraControl) (d : Delivery)
    (result : Option IplImage) (nf : PSMove_Bool)
    (hd : cc.deinterlace = PSMove_Bool.PSMove_False) (he : d.eyeFrame = none)
    (h : camera_control_query_frame Backend.PS3EYE_DRIVER cv cc d = some (cc', result, nf)) :
    nf = PSMove_Bool.PSMove_False ∧ cc'.framebgr = cc.framebgr := by
  have hne : ¬ (PSMove_Bool.PSMove_False = PSMove_Bool.PSMove_True) := by decide
  simp only [camera_control_query_frame, query_frame_acquire, query_frame_deinterlace, he] at h
  cases hf : cc.framebgr with
  | none => simp only [hf] at h; exact absurd h (by simp)
  | some fb =>
    simp only [hf, hd, if_neg hne] at h
    cases h3 : query_frame_undistort cv cc (some fb) with
    | none => rw [h3] at h; exact absurd h (by simp)
    | some r3 =>
      obtain ⟨c3, res3⟩ := r3
      rw [h3] at h
      simp only [Option.some.injEq, Prod.mk.injEq] at h
      obtain ⟨rfl, _, rfl⟩ := h
      refine ⟨rfl, ?_⟩
      unfold query_frame_undistort at h3
      split at h3
      · split at h3
        · simp only [Option.some.injEq, Prod.mk.injEq] at h3
          obtain ⟨rfl, _⟩ := h3
          exact hf
        · exact absurd h3 (by simp)
      · simp only [Option.some.injEq, Prod.mk.injEq] at h3
        obtain ⟨rfl, _⟩ := h3
        exact hf

/-! ## Lemmas and theorem on the deinterlace stage -/

theorem row_decode (ws y b : Int) (hb0 : 0 ≤ b) (hb : b < ws) :
    (y * ws + b) / ws = y ∧ (y * ws + b) % ws = b := by
  have hws : 0 < ws := by omega
  rw [Int.ediv_emod_unique hws]
  refine ⟨by ring, hb0, hb⟩

/-- A byte written by `IplImage.fill` inside the image. -/
theorem fill_byteAt (img : IplImage) (f : Int → Int → Byte) (y b : Int)
    (hy0 : 0 ≤ y) (hy : y < img.height) (hb0 : 0 ≤ b) (hb : b < img.width * img.nChannels)
    (hstep : img.width * img.nChannels ≤ img.widthStep) :
    (img.fill f).byteAt y b = f y b := by
  have hlt : b < img.widthStep := by omega
  obtain ⟨e1, e2⟩ := row_decode img.widthStep y b hb0 hlt
  have hws : 0 < img.widthStep := by omega
  simp only [IplImage.fill, IplImage.byteAt]
  have e : img.imageData + y * img.widthStep + b - img.imageData = y * img.widthStep + b := by
    ring
  rw [e, e1, e2, if_pos ⟨hws, hy0, hy, hb⟩]

theorem half_row (y h : Int) (h2 : 2 ≤ h) (heven : h % 2 = 0) :
    y * Int.tdiv h 2 / h = y / 2 := by
  rw [Int.tdiv_eq_ediv (by omega) (by decide)]
  have hm : 0 < h / 2 := by omega
  have e : h = 2 * (h / 2) := by omega
  conv_lhs => rw [e]
  have : 2 * (h / 2) / 2 = h / 2 := by omega
  rw [this]
  exact Int.mul_ediv_mul_of_pos_left y 2 hm

theorem same_column (b w c : Int) (hw : w ≠ 0) :
    (b / c * w / w) * c + b % c = b := by
  rw [Int.mul_ediv_cancel _ hw]
  exact Int.ediv_add_emod' b c

/-- The acquisition leaves the deinterlace flag alone and makes `result` point
at the frame buffer of the variant: `frame3ch` (CL), `framebgr` (PS3EYE), the
image of the capture (generic). -/
theorem query_frame_acquire_result (b : Backend) (cc cc1 : CameraControl) (d : Delivery)
    (ref : FrameRef) (result : Option IplImage) (nf : PSMove_Bool)
    (h : query_frame_acquire b cc d = some (cc1, ref, result, nf)) :
    cc1.deinterlace = cc.deinterlace ∧ ref = resultRef b ∧ frameAt cc1 d ref = result := by
  unfold query_frame_acquire at h
  cases b
  · simp only [] at h
    split at h
    · simp only [Option.some.injEq, Prod.mk.injEq] at h
      obtain ⟨rfl, rfl, rfl, _⟩ := h
      exact ⟨rfl, rfl, rfl⟩
    · exact absurd h (by simp)
  · simp only [] at h
    cases hf : cc.framebgr with
    | none => simp only [hf] at h; exact absurd h (by simp)
    | some fb =>
      simp only [hf] at h
      split at h
      · simp only [Option.some.injEq, Prod.mk.injEq] at h
        obtain ⟨rfl, rfl, rfl, _⟩ := h
        exact ⟨rfl, rfl, rfl⟩
      · simp only [Option.some.injEq, Prod.mk.injEq] at h
        obtain ⟨rfl, rfl, rfl, _⟩ := h
        exact ⟨rfl, rfl, hf⟩
  · simp only [Option.some.injEq, Prod.mk.injEq] at h
    obtain ⟨rfl, rfl, rfl, _⟩ := h
    exact ⟨rfl, rfl, rfl⟩

/-- With deinterlace enabled, the frame query hands the image the deinterlace
stage leaves, stored in the frame buffer `result` points at, to the undistort
stage, in every variant. -/
theorem query_frame_deinterlaced (b : Backend) (cv : OpenCV) (cc cc1 : CameraControl)
    (d : Delivery) (ref : FrameRef) (img : IplImage) (nf : PSMove_Bool)
    (hacq : query_frame_acquire b cc d = some (cc1, ref, some img, nf))
    (hd : cc.deinterlace = PSMove_Bool.PSMove_True) :
    camera_control_query_frame b cv cc d =
      (query_frame_undistort cv (storeFrame cc1 ref (deinterlace_stage img).1)
        (some (deinterlace_stage img).1)).map (fun r => (r.1, r.2, nf)) := by
  have hd1 : cc1.deinterlace = PSMove_Bool.PSMove_True :=
    (query_frame_acquire_result b cc cc1 d ref (some img) nf hacq).1.trans hd
  have hmap : ∀ o : Option (CameraControl × Option IplImage),
      (match o with
        | none => none
        | some (cc, result) => some (cc, result, nf)) = o.map (fun r => (r.1, r.2, nf)) := by
    intro o
    cases o <;> rfl
  unfold camera_control_query_frame
  rw [hacq]
  simp only []
  unfold query_frame_deinterlace
  rw [if_pos hd1]
  cases ref <;> exact hmap _

/-- Without maps the undistort stage returns what it is given. -/
theorem query_frame_undistort_no_maps (cv : OpenCV) (cc : CameraControl)
    (result : Option IplImage) (hm : cc.mapx = none) :
    query_frame_undistort cv cc result = some (cc, result) := by
  unfold query_frame_undistort
  rw [hm]

/-- C9: with deinterlace enabled and nearest-neighbour resize taken as
"destination row y copies source row floor(y*srcHeight/dstHeight)", for every
frame of even height h at least 2 (its row bytes lying within the row pitch
`widthStep`) the deinterlace stage leaves a frame of the original height h (and
unchanged width, row pitch and origin) whose row y equals
input row `2*floor(y/2)+1` for every y below h; hence a frame whose odd rows are of
one colour and whose even rows of another becomes uniform in the colour of its
odd rows.  In each of the three variants, when the acquisition leaves the frame
in the buffer `result` points at (`frame3ch`, `framebgr`, the image of the
capture), `camera_control_query_frame` stores the frame the stage leaves in that
buffer and hands it to the undistort stage; with no maps loaded it is the frame
returned. -/
theorem deinterlace_stage_rows (img : IplImage) (h2 : 2 ≤ img.height)
    (heven : img.height % 2 = 0)
    (hstep : img.width * img.nChannels ≤ img.widthStep) :
    ((deinterlace_stage img).1.height = img.height ∧
      (deinterlace_stage img).1.width = img.width ∧
      (deinterlace_stage img).1.nChannels = img.nChannels ∧
      (deinterlace_stage img).1.widthStep = img.widthStep ∧
      (deinterlace_stage img).1.imageData = img.imageData) ∧
    (∀ y b : Int, 0 ≤ y → y < img.height → 0 ≤ b → b < img.width * img.nChannels →
      (deinterlace_stage img).1.byteAt y b = img.byteAt (2 * (y / 2) + 1) b) ∧
    (∀ odd even : Byte,
      (∀ y b : Int, 0 ≤ y → y < img.height → 0 ≤ b → b < img.width * img.nChannels →
        img.byteAt y b = if y % 2 = 1 then odd else even) →
      ∀ y b : Int, 0 ≤ y → y < img.height → 0 ≤ b → b < img.width * img.nChannels →
        (deinterlace_stage img).1.byteAt y b = odd) ∧
    (∀ (b : Backend) (cv : OpenCV) (cc cc1 : CameraControl) (d : Delivery) (ref : FrameRef)
        (nf : PSMove_Bool),
      query_frame_acquire b cc d = some (cc1, ref, some img, nf) →
      cc.deinterlace = PSMove_Bool.PSMove_True →
      (ref = resultRef b ∧ frameAt cc1 d ref = some img) ∧
      camera_control_query_frame b cv cc d =
        (query_frame_undistort cv (storeFrame cc1 ref (deinterlace_stage img).1)
          (some (deinterlace_stage img).1)).map (fun r => (r.1, r.2, nf)) ∧
      (cc.mapx = none →
        camera_control_query_frame b cv cc d =
          some (storeFrame cc1 ref (deinterlace_stage img).1,
            some (deinterlace_stage img).1, nf))) := by
  have rows : ∀ y b : Int, 0 ≤ y → y < img.height → 0 ≤ b → b < img.width * img.nChannels →
      (deinterlace_stage img).1.byteAt y b = img.byteAt (2 * (y / 2) + 1) b := by
    intro y b hy0 hy hb0 hb
    simp only [deinterlace_stage, cvCloneImage, cvResize_NN]
    rw [fill_byteAt img _ y b hy0 hy hb0 hb hstep]
    simp only [IplImage.byteAt]
    rw [half_row y img.height h2 heven]
    have hw : img.width ≠ 0 := by
      intro h0
      rw [h0, zero_mul] at hb
      omega
    have e := same_column b img.width img.nChannels hw
    congr 1
    have : img.imageData + img.widthStep + y / 2 * (img.widthStep * 2) +
        (b / img.nChannels * img.width / img.width * img.nChannels + b % img.nChannels) =
        img.imageData + (2 * (y / 2) + 1) * img.widthStep + b := by
      rw [e]; ring
    rw [← this]
  refine ⟨⟨rfl, rfl, rfl, rfl, rfl⟩, rows, ?_, ?_⟩
  · intro odd even halt y b hy0 hy hb0 hb
    rw [rows y b hy0 hy hb0 hb, halt _ b (by omega) (by omega) hb0 hb, if_pos (by omega)]
  · intro b cv cc cc1 d ref nf hacq hd
    have hq := query_frame_deinterlaced b cv cc cc1 d ref img nf hacq hd
    refine ⟨(query_frame_acquire_result b cc cc1 d ref (some img) nf hacq).2, hq, ?_⟩
    intro hm
    have hm1 : cc1.mapx = none :=
      (query_frame_acquire_maps b cc cc1 d ref (some img) nf hacq).1.trans hm
    rw [hq, query_frame_undistort_no_maps cv _ _ (by cases ref <;> exact hm1)]
    rfl

/-- Witness of C9 on `stripes` (4 rows, black and white alternating) held by
the PS3EYE handle `handleStripes`: the hypotheses hold, and the frame query
returns the deinterlaced frame and stores it in `framebgr`. -/
theorem deinterlace_stage_rows_witness :
    (2 ≤ stripes.height ∧ stripes.height % 2 = 0 ∧
      stripes.width * stripes.nChannels ≤ stripes.widthStep) ∧
    camera_control_query_frame Backend.PS3EYE_DRIVER sampleOpenCV handleStripes
        nothingDelivered =
      some ({ handleStripes with framebgr := some (deinterlace_stage stripes).1 },
        some (deinterlace_stage stripes).1, PSMove_Bool.PSMove_False) :=
  ⟨by decide,
    ((deinterlace_stage_rows stripes (by decide) (by decide) (by decide)).2.2.2
      Backend.PS3EYE_DRIVER sampleOpenCV handleStripes handleStripes nothingDelivered
      FrameRef.framebgr PSMove_Bool.PSMove_False rfl rfl).2.2 rfl⟩

/-! ## Theorems on the handle -/

/-- The sample handle `handle320` is the one `camera_control_new_with_settings`
returns. -/
theorem handle320_opened :
    camera_control_new_with_settings Backend.PS3EYE_DRIVER sampleConstants envUnset oneCamera
      PSMoveTracker_ErrorCode.PSMove_Camera_Error_None 0 320 240 60 0 =
      (some handle320, PSMoveTracker_ErrorCode.PSMove_Camera_Error_None) := by
  rfl

/-- The sample handle `handle320Calibrated` is the one the calibration load
leaves. -/
theorem handle320Calibrated_loaded :
    camera_control_read_calibration Backend.PS3EYE_DRIVER sampleConstants sampleOpenCV envUnset
      handle320 (some sampleMat) (some sampleMat) nothingDelivered =
      some handle320Calibrated := by
  rfl

theorem handle320Calibrated_reachable :
    Reachable Backend.PS3EYE_DRIVER sampleConstants sampleOpenCV handle320Calibrated :=
  Reachable.read_calibration envUnset (some sampleMat) (some sampleMat) nothingDelivered
    handle320 handle320Calibrated
    (Reachable.opened envUnset oneCamera _ _ 0 320 240 60 0 handle320 handle320_opened)
    handle320Calibrated_loaded

/-- C3, counterexample: the handle `handle320Calibrated` holds both maps; a
calibration load whose intrinsics file fails to load returns with both gone. -/
theorem read_calibration_failure_drops_maps :
    handle320Calibrated.mapx.isSome = true ∧ handle320Calibrated.mapy.isSome = true ∧
      (camera_control_read_calibration Backend.PS3EYE_DRIVER sampleConstants sampleOpenCV
        envUnset handle320Calibrated none (some sampleMat) nothingDelivered).map
          (fun c => (c.mapx.isSome, c.mapy.isSome)) = some (false, false) := by
  decide

/-- C3, amended: for every handle state, if loading the intrinsics file or
loading the distortion file fails, `camera_control_read_calibration` releases
the handle's existing maps: it returns with `mapx` and `mapy` both absent and
every other field of the handle as before. -/
theorem read_calibration_failure_releases_maps (b : Backend) (K : Constants) (cv : OpenCV)
    (env : Environment) (cc : CameraControl) (intrinsic distortion : Option CvMat)
    (d : Delivery) (h : intrinsic = none ∨ distortion = none) :
    camera_control_read_calibration b K cv env cc intrinsic distortion d =
      some { cc with mapx := none, mapy := none } :=
  read_calibration_failed b K cv env cc intrinsic distortion d h

/-- Witness of the amended C3 at `handle320Calibrated`, the distortion file failing. -/
theorem read_calibration_failure_releases_maps_witness :
    ((some sampleMat = none ∨ (none : Option CvMat) = none)) ∧
      camera_control_read_calibration Backend.PS3EYE_DRIVER sampleConstants sampleOpenCV envUnset
        handle320Calibrated (some sampleMat) none nothingDelivered =
        some { handle320Calibrated with mapx := none, mapy := none } :=
  ⟨Or.inr rfl, read_calibration_failure_releases_maps _ _ _ _ _ _ _ _ (Or.inr rfl)⟩

/-- C4: in every state reachable from a handle returned by
`camera_control_new_with_settings` through any sequence of
`camera_control_read_calibration` (whatever the two loads return),
`camera_control_reset_calibration`, `camera_control_set_deinterlace` and
`camera_control_query_frame`, `mapx` is present if and only if `mapy` is. -/
theorem maps_present_together (b : Backend) (K : Constants) (cv : OpenCV) (cc : CameraControl)
    (h : Reachable b K cv cc) : cc.mapx.isSome = true ↔ cc.mapy.isSome = true := by
  induction h with
  | opened env drv g g' cameraID width height framerate cam_type cc hnew =>
    obtain ⟨hx, hy⟩ := new_with_settings_maps b K env drv g g' cameraID width height framerate
      cam_type cc hnew
    rw [hx, hy]
  | read_calibration env intrinsic distortion d cc cc' _ hcal _ =>
    cases intrinsic with
    | none =>
      rw [read_calibration_failed b K cv env cc none distortion d (Or.inl rfl)] at hcal
      simp only [Option.some.injEq] at hcal
      subst hcal
      exact Iff.rfl
    | some intrinsic =>
      cases distortion with
      | none =>
        rw [read_calibration_failed b K cv env cc _ none d (Or.inr rfl)] at hcal
        simp only [Option.some.injEq] at hcal
        subst hcal
        exact Iff.rfl
      | some distortion =>
        obtain ⟨hx, hy⟩ := read_calibration_loaded b K cv env cc cc' intrinsic distortion d hcal
        cases hmx : cc'.mapx <;> cases hmy : cc'.mapy <;> simp_all
  | reset_calibration cc _ _ =>
    rw [reset_calibration_eq]
  | set_deinterlace enabled cc cc' _ hset ih =>
    simp only [camera_control_set_deinterlace, Option.some.injEq] at hset
    subst hset
    exact ih
  | query_frame d cc cc' result new_frame _ hq ih =>
    obtain ⟨hx, hy⟩ := query_frame_maps b cv cc cc' d result new_frame hq
    rw [hx, hy]
    exact ih

/-- Witness of C4 at `handle320Calibrated`, reached by an open and a calibration
load; both maps are present there. -/
theorem maps_present_together_witness :
    Reachable Backend.PS3EYE_DRIVER sampleConstants sampleOpenCV handle320Calibrated ∧
      (handle320Calibrated.mapx.isSome = true ↔ handle320Calibrated.mapy.isSome = true) :=
  ⟨handle320Calibrated_reachable, maps_present_together _ _ _ _ handle320Calibrated_reachable⟩

/-- C5, the code at the failing input: the PS3EYE handle opened at an explicit
320x240, with no override set and built-in defaults 640x480, keeps width 320 and
height 240 through a calibration load in which both files load, and the rebuilt
`mapx` and `mapy` are 640 by 480, the `get_metrics` resolution. -/
theorem read_calibration_maps_not_handle_resolution :
    (camera_control_read_calibration Backend.PS3EYE_DRIVER sampleConstants sampleOpenCV envUnset
      handle320 (some sampleMat) (some sampleMat) nothingDelivered).map
        (fun c => (c.width, c.height, c.mapx.map (fun m => (m.width, m.height)),
          c.mapy.map (fun m => (m.width, m.height)))) =
      some (320, 240, some (640, 480), some (640, 480)) := by
  decide

/-- C6, counterexample: in the generic OpenCV variant, with 0 cameras connected,
opening camera 99 does not both return NULL and set the error code to
`PSMove_Camera_Not_Found`: a handle is returned and the error code is as before. -/
theorem new_with_settings_opencv_no_camera :
    noCameras.cams ≤ 99 ∧
    ¬ ((camera_control_new_with_settings Backend.OPENCV sampleConstants envUnset noCameras
          PSMoveTracker_ErrorCode.PSMove_Camera_Error_None 99 0 0 0 2).1.isNone = true ∧
        (camera_control_new_with_settings Backend.OPENCV sampleConstants envUnset noCameras
          PSMoveTracker_ErrorCode.PSMove_Camera_Error_None 99 0 0 0 2).2 =
          PSMoveTracker_ErrorCode.PSMove_Camera_Not_Found) ∧
    (camera_control_new_with_settings Backend.OPENCV sampleConstants envUnset noCameras
      PSMoveTracker_ErrorCode.PSMove_Camera_Error_None 99 0 0 0 2).1.isSome = true ∧
    (camera_control_new_with_settings Backend.OPENCV sampleConstants envUnset noCameras
      PSMoveTracker_ErrorCode.PSMove_Camera_Error_None 99 0 0 0 2).2 =
      PSMoveTracker_ErrorCode.PSMove_Camera_Error_None := by
  decide

/-- C6, amended: `camera_control_new_with_settings` called with a cameraID that
is at least the number of connected cameras returns no handle and sets
`g_last_tracker_error_code` to `PSMove_Camera_Not_Found` in the PS3EYE variant;
returns no handle in the CL variant; and in the generic OpenCV variant, which
counts no cameras, returns a handle and leaves the error code as it was. -/
theorem new_with_settings_camera_not_found (b : Backend) (K : Constants) (env : Environment)
    (drv : Drivers) (g : PSMoveTracker_ErrorCode)
    (cameraID width height framerate cam_type : Int) (h : drv.cams ≤ cameraID) :
    match b with
    | Backend.PS3EYE_DRIVER =>
      camera_control_new_with_settings b K env drv g cameraID width height framerate cam_type =
        (none, PSMoveTracker_ErrorCode.PSMove_Camera_Not_Found)
    | Backend.CL_DRIVER =>
      (camera_control_new_with_settings b K env drv g cameraID width height framerate
        cam_type).1 = none
    | Backend.OPENCV =>
      (camera_control_new_with_settings b K env drv g cameraID width height framerate
        cam_type).1.isSome = true ∧
      (camera_control_new_with_settings b K env drv g cameraID width height framerate
        cam_type).2 = g := by
  cases b
  · simp only [camera_control_new_with_settings, if_pos h]
  · simp only [camera_control_new_with_settings, if_pos h]
  · simp only [camera_control_new_with_settings]
    cases env.filename <;> exact ⟨rfl, rfl⟩

/-- Witness of the amended C6: the PS3EYE variant, camera 99 with no camera
connected. -/
theorem new_with_settings_camera_not_found_witness :
    noCameras.cams ≤ 99 ∧
      camera_control_new_with_settings Backend.PS3EYE_DRIVER sampleConstants envUnset noCameras
        PSMoveTracker_ErrorCode.PSMove_Camera_Error_None 99 0 0 0 2 =
        (none, PSMoveTracker_ErrorCode.PSMove_Camera_Not_Found) :=
  ⟨by decide, new_with_settings_camera_not_found Backend.PS3EYE_DRIVER sampleConstants envUnset
    noCameras PSMoveTracker_ErrorCode.PSMove_Camera_Error_None 99 0 0 0 2 (by decide)⟩

/-- C7, the code at the failing input: in the generic OpenCV variant and in the
CL variant a frame query in which the backend delivers nothing stores
`PSMove_True` in `*out_new_frame`; in the generic variant the image returned is
NULL. -/
theorem query_frame_reports_new_frame_without_delivery :
    (camera_control_query_frame Backend.OPENCV sampleOpenCV handleOpenCV nothingDelivered).map
        (fun r => (r.2.1.isSome, r.2.2)) = some (false, PSMove_Bool.PSMove_True) ∧
    (camera_control_query_frame Backend.CL_DRIVER sampleOpenCV handleCL nothingDelivered).map
        (fun r => r.2.2) = some PSMove_Bool.PSMove_True := by
  decide

/-- C8, counterexample: the CL variant, opened with an explicit 320x240 on a
camera whose driver reports 640x480 frames, succeeds and reports width 640 and
height 480, not the 320 and 240 asked for. -/
theorem new_with_settings_cl_resolution :
    (camera_control_new_with_settings Backend.CL_DRIVER sampleConstants envUnset oneCamera
      PSMoveTracker_ErrorCode.PSMove_Camera_Error_None 0 320 240 60 0).1.map
        (fun c => (c.width, c.height)) = some (640, 480) ∧
    ¬ ((camera_control_new_with_settings Backend.CL_DRIVER sampleConstants envUnset oneCamera
      PSMoveTracker_ErrorCode.PSMove_Camera_Error_None 0 320 240 60 0).1.map
        (fun c => (c.width, c.height)) = some (320, 240)) := by
  decide

/-- C8, amended: for every successful `camera_control_new_with_settings`, in the
PS3EYE variant, and in the generic OpenCV variant when the input-source
override is unset, the handle reports the width and height asked for when both
are positive and otherwise the `get_metrics` resolution, each dimension being
its environment override or, when that reads as -1, the built-in default; in the
generic variant with the input-source override set it reports the width and
height asked for when both are positive; in the CL variant the handle reports
the frame dimensions the CL driver returns. -/
theorem new_with_settings_resolution (b : Backend) (K : Constants) (env : Environment)
    (drv : Drivers) (g g' : PSMoveTracker_ErrorCode)
    (cameraID width height framerate cam_type : Int) (cc : CameraControl)
    (h : camera_control_new_with_settings b K env drv g cameraID width height framerate cam_type
      = (some cc, g')) :
    match b with
    | Backend.CL_DRIVER => (cc.width, cc.height) = (drv.clFrameWidth, drv.clFrameHeight)
    | Backend.PS3EYE_DRIVER =>
      (cc.width, cc.height) =
        if 0 < width ∧ 0 < height then (width, height)
        else (if env.width = -1 then K.PSMOVE_TRACKER_DEFAULT_WIDTH else env.width,
              if env.height = -1 then K.PSMOVE_TRACKER_DEFAULT_HEIGHT else env.height)
    | Backend.OPENCV =>
      (0 < width ∧ 0 < height → (cc.width, cc.height) = (width, height)) ∧
      (env.filename = none → ¬ (0 < width ∧ 0 < height) →
        (cc.width, cc.height) =
          (if env.width = -1 then K.PSMOVE_TRACKER_DEFAULT_WIDTH else env.width,
           if env.height = -1 then K.PSMOVE_TRACKER_DEFAULT_HEIGHT else env.height)) := by
  unfold camera_control_new_with_settings at h
  cases b
  · simp only [] at h
    split_ifs at h <;> simp only [Prod.mk.injEq, Option.some.injEq] at h
    all_goals first
      | (obtain ⟨rfl, _⟩ := h; rfl)
      | exact absurd h.1 (by simp)
  · simp only [] at h ⊢
    by_cases hpos : 0 < width ∧ 0 < height
    · have hneg : ¬ (width ≤ 0 ∨ height ≤ 0) := by omega
      simp only [if_neg hneg, if_pos hpos] at h ⊢
      split_ifs at h <;> simp only [Prod.mk.injEq, Option.some.injEq] at h
      all_goals first
        | (obtain ⟨rfl, _⟩ := h; rfl)
        | exact absurd h.1 (by simp)
    · have hneg : width ≤ 0 ∨ height ≤ 0 := by omega
      simp only [if_pos hneg, if_neg hpos, get_metrics] at h ⊢
      by_cases hopen : drv.cams ≤ cameraID
      · simp only [if_pos hopen, Prod.mk.injEq] at h
        exact absurd h.1 (by simp)
      · simp only [if_neg hopen] at h
        cases ho : drv.eyeOpened
        · simp only [ho, Bool.false_eq_true, if_false, Option.isNone_none, if_true,
            Prod.mk.injEq] at h
          exact absurd h.1 (by simp)
        · simp only [ho, if_true, Option.isNone_some, Bool.false_eq_true, if_false,
            Prod.mk.injEq, Option.some.injEq] at h
          obtain ⟨rfl, _⟩ := h
          rfl
  · simp only [] at h ⊢
    cases hf : env.filename with
    | some video =>
      simp only [hf, Prod.mk.injEq, Option.some.injEq] at h
      obtain ⟨rfl, _⟩ := h
      exact ⟨fun _ => rfl, fun hnone => absurd hnone (by simp)⟩
    | none =>
      simp only [hf] at h
      by_cases hpos : 0 < width ∧ 0 < height
      · have hneg : ¬ (width ≤ 0 ∨ height ≤ 0) := by omega
        simp only [if_neg hneg, Prod.mk.injEq, Option.some.injEq] at h
        obtain ⟨rfl, _⟩ := h
        exact ⟨fun _ => rfl, fun _ hn => absurd hpos hn⟩
      · have hneg : width ≤ 0 ∨ height ≤ 0 := by omega
        simp only [if_pos hneg, get_metrics, Prod.mk.injEq, Option.some.injEq] at h
        obtain ⟨rfl, _⟩ := h
        exact ⟨fun hp => absurd hp hpos, fun _ _ => rfl⟩

/-- Witness of the amended C8: the PS3EYE variant opened at 320x240. -/
theorem new_with_settings_resolution_witness :
    camera_control_new_with_settings Backend.PS3EYE_DRIVER sampleConstants envUnset oneCamera
        PSMoveTracker_ErrorCode.PSMove_Camera_Error_None 0 320 240 60 0 =
        (some handle320, PSMoveTracker_ErrorCode.PSMove_Camera_Error_None) ∧
      (handle320.width, handle320.height) =
        (if (0 : Int) < 320 ∧ (0 : Int) < 240 then ((320 : Int), (240 : Int))
         else (if envUnset.width = -1 then sampleConstants.PSMOVE_TRACKER_DEFAULT_WIDTH
                 else envUnset.width,
               if envUnset.height = -1 then sampleConstants.PSMOVE_TRACKER_DEFAULT_HEIGHT
                 else envUnset.height)) :=
  ⟨handle320_opened, new_with_settings_resolution Backend.PS3EYE_DRIVER sampleConstants envUnset
    oneCamera _ _ 0 320 240 60 0 handle320 handle320_opened⟩

end PSMove
